import Mathlib

/-!
# Verification of the Restyaboard → Trello conversion tool

Shallow embedding of `src/restya2trello.py`.  The script reads a Restyaboard
JSON export and emits a Trello import JSON.  We model the parsed input as
typed records whose optional fields distinguish *absent* keys from *null*
values (the Python call `d.get(k, default)` returns the default only when the key is
absent, while `d[k]` raises `KeyError` when it is absent and returns `None`
when it is null).  Machine-level details (MD5, UTF-8) are modelled over `Nat`.
-/

namespace R2T

/-! ## MD5 (RFC 1321), over `Nat` with explicit `% 2^32`

`gen_trello_id` and `gen_short_link` truncate the lowercase hex MD5 digest of
the UTF-8 bytes of `str(value)`. -/

def M32 : Nat := 4294967296

def add32 (a b : Nat) : Nat := (a + b) % M32

def rotl32 (x n : Nat) : Nat := ((x <<< n) ||| (x >>> (32 - n))) % M32

def not32 (x : Nat) : Nat := Nat.xor x 4294967295

/-- The 64 round constants `floor(2^32 * |sin(i+1)|)`. -/
def md5K : List Nat :=
  [3614090360, 3905402710, 606105819, 3250441966, 4118548399, 1200080426,
   2821735955, 4249261313, 1770035416, 2336552879, 4294925233, 2304563134,
   1804603682, 4254626195, 2792965006, 1236535329, 4129170786, 3225465664,
   643717713, 3921069994, 3593408605, 38016083, 3634488961, 3889429448,
   568446438, 3275163606, 4107603335, 1163531501, 2850285829, 4243563512,
   1735328473, 2368359562, 4294588738, 2272392833, 1839030562, 4259657740,
   2763975236, 1272893353, 4139469664, 3200236656, 681279174, 3936430074,
   3572445317, 76029189, 3654602809, 3873151461, 530742520, 3299628645,
   4096336452, 1126891415, 2878612391, 4237533241, 1700485571, 2399980690,
   4293915773, 2240044497, 1873313359, 4264355552, 2734768916, 1309151649,
   4149444226, 3174756917, 718787259, 3951481745]

/-- Per-round left-rotation amounts. -/
def md5S : List Nat :=
  [7, 12, 17, 22, 7, 12, 17, 22, 7, 12, 17, 22, 7, 12, 17, 22,
   5, 9, 14, 20, 5, 9, 14, 20, 5, 9, 14, 20, 5, 9, 14, 20,
   4, 11, 16, 23, 4, 11, 16, 23, 4, 11, 16, 23, 4, 11, 16, 23,
   6, 10, 15, 21, 6, 10, 15, 21, 6, 10, 15, 21, 6, 10, 15, 21]

/-- One MD5 step on the state `(a, b, c, d)` for step index `i`,
given the sixteen 32-bit message words `w`. -/
def md5Step (w : List Nat) (st : Nat × Nat × Nat × Nat) (i : Nat) :
    Nat × Nat × Nat × Nat :=
  let (a, b, c, d) := st
  let f :=
    if i < 16 then (b &&& c) ||| ((not32 b) &&& d)
    else if i < 32 then (d &&& b) ||| ((not32 d) &&& c)
    else if i < 48 then Nat.xor (Nat.xor b c) d
    else Nat.xor c (b ||| (not32 d))
  let g :=
    if i < 16 then i
    else if i < 32 then (5 * i + 1) % 16
    else if i < 48 then (3 * i + 5) % 16
    else (7 * i) % 16
  let tmp := add32 (add32 (add32 a f) (md5K.getD i 0)) (w.getD g 0)
  let a' := add32 b (rotl32 tmp (md5S.getD i 0))
  (d, a', b, c)

/-- Process one 64-byte block (as sixteen little-endian words). -/
def md5Block (st : Nat × Nat × Nat × Nat) (w : List Nat) :
    Nat × Nat × Nat × Nat :=
  let (a0, b0, c0, d0) := st
  let (a, b, c, d) := (List.range 64).foldl (md5Step w) (a0, b0, c0, d0)
  (add32 a0 a, add32 b0 b, add32 c0 c, add32 d0 d)

/-- Split a byte list into little-endian 32-bit words (4 bytes each). -/
def bytesToWords : List Nat → List Nat
  | b0 :: b1 :: b2 :: b3 :: rest =>
      (b0 + 256 * b1 + 65536 * b2 + 16777216 * b3) :: bytesToWords rest
  | _ => []

/-- Split a word list into 16-word (64-byte) blocks. -/
def chunks16 : List Nat → List (List Nat)
  | w0 :: w1 :: w2 :: w3 :: w4 :: w5 :: w6 :: w7 ::
    w8 :: w9 :: w10 :: w11 :: w12 :: w13 :: w14 :: w15 :: rest =>
      [w0, w1, w2, w3, w4, w5, w6, w7, w8, w9, w10, w11, w12, w13, w14, w15] ::
        chunks16 rest
  | _ => []

/-- Little-endian byte rendering of `n`, `k` bytes. -/
def leBytes (k n : Nat) : List Nat :=
  match k with
  | 0 => []
  | k + 1 => (n % 256) :: leBytes k (n / 256)

/-- RFC 1321 padding: `0x80`, zeros to 56 mod 64, then the 64-bit
little-endian bit length. -/
def md5Pad (msg : List Nat) : List Nat :=
  let len := msg.length
  let padLen := (119 - len % 64) % 64 + 1
  msg ++ (128 :: List.replicate (padLen - 1) 0) ++
    leBytes 8 ((len * 8) % 18446744073709551616)

def hexDigit (n : Nat) : Char :=
  if n < 10 then Char.ofNat (48 + n) else Char.ofNat (87 + n)

/-- Two lowercase hex digits of a byte. -/
def byteHex (n : Nat) : List Char := [hexDigit (n / 16), hexDigit (n % 16)]

/-- MD5 digest of a byte list, as the 32-char lowercase hex string. -/
def md5HexBytes (msg : List Nat) : String :=
  let (a, b, c, d) :=
    (chunks16 (bytesToWords (md5Pad msg))).foldl md5Block
      (1732584193, 4023233417, 2562383102, 271733878)
  let bytes := leBytes 4 a ++ leBytes 4 b ++ leBytes 4 c ++ leBytes 4 d
  ⟨(bytes.map byteHex).flatten⟩

/-- UTF-8 encoding of a single code point, as bytes. -/
def utf8Char (n : Nat) : List Nat :=
  if n < 128 then [n]
  else if n < 2048 then [192 + n / 64, 128 + n % 64]
  else if n < 65536 then [224 + n / 4096, 128 + n / 64 % 64, 128 + n % 64]
  else [240 + n / 262144, 128 + n / 4096 % 64, 128 + n / 64 % 64, 128 + n % 64]

/-- UTF-8 bytes of a string. -/
def utf8 (s : String) : List Nat := (s.data.map (fun c => utf8Char c.toNat)).flatten

/-- MD5 hex digest of a string (`hashlib.md5(value.encode()).hexdigest()`). -/
def md5Hex (s : String) : String := md5HexBytes (utf8 s)

/-! ## Python values and JSON fields

`PyVal` is the value type for identifier-like fields (`id`, `board_id`),
which the script feeds to `str(...)`.  `Fld α` distinguishes an *absent*
key (`none`) from a key present with a *null* value (`some none`) and a key
with a proper value (`some (some v)`). -/

inductive PyVal where
  | int (n : Int)
  | str (s : String)
  | null
deriving DecidableEq, Repr

/-- Python `str(value)` for the values we model. -/
def pyStr : PyVal → String
  | .int n => toString n
  | .str s => s
  | .null => "None"

def Fld (α : Type) : Type := Option (Option α)

instance (α) [DecidableEq α] : DecidableEq (Fld α) := by
  unfold Fld; infer_instance

instance (α) [Repr α] : Repr (Fld α) := by
  unfold Fld; infer_instance

/-- Models `d.get(k, "") or ""`: absent, null and empty all become the
empty string. -/
def fldOrEmpty : Fld String → String
  | some (some s) => if s = "" then "" else s
  | _ => ""

/-- Models line 267, `ch.get("name", "") or "Checklist"`. -/
def fldChecklistName : Fld String → String
  | some (some s) => if s = "" then "Checklist" else s
  | _ => "Checklist"

/-- Models line 255, `ci_item.get("name", "")`: absent gives the empty
string but null stays `None`. -/
def fldItemName : Fld String → Option String
  | none => some ""
  | some v => v

/-- Models `card_item.get("due_date", None)`: absent and null both give
`None`. -/
def fldDue : Fld String → Option String
  | some (some s) => some s
  | _ => none

/-- Models `d.get(k) or []` and the `if d.get(k):` loops: absent, null and
the empty list all yield no iterations. -/
def fldList {α : Type} : Fld (List α) → List α
  | some (some xs) => xs
  | _ => []

/-- Models `d.get("is_archived", 0) == 1` (and `is_completed` likewise):
true only for a present, non-null value 1. -/
def fldEqOne (f : Fld Int) : Bool := f = some (some 1)

/-! ## ID synthesis (`gen_trello_id`, `gen_short_link`, `normalize_due`) -/

/-- Python slicing `s[:n]`: the first `n` characters. -/
def strTake (s : String) (n : Nat) : String := ⟨s.data.take n⟩

/-- Function `gen_trello_id`: first 24 hex chars of `md5(str(value))`. -/
def gen_trello_id (v : PyVal) : String := strTake (md5Hex (pyStr v)) 24

/-- Function `gen_short_link`: first 8 hex chars of `md5(value)`. -/
def gen_short_link (s : String) : String := strTake (md5Hex s) 8

def lastChar : List Char → Option Char
  | [] => none
  | [c] => some c
  | _ :: c :: rest => lastChar (c :: rest)

/-- Models `due_value.endswith("Z")` for the fixed one-character suffix. -/
def endsWithZ (s : String) : Bool := lastChar s.data = some 'Z'

/-- Function `normalize_due`: append the suffix when the value is truthy
(non-`None`, non-empty) and does not already end in it. -/
def normalize_due (due_value : Option String) : Option String :=
  match due_value with
  | some s => if s ≠ "" ∧ endsWithZ s = false then some (s ++ "Z") else some s
  | none => none

/-! ## Source records -/

structure SrcLabel where
  id : Option PyVal          -- models `.get("id", "unknownLabel")`
  color : Fld String         -- `.get("color", "")`
deriving DecidableEq, Repr

/-- Seed used for a new board label: `restya_label.get("id", "unknownLabel")`. -/
def labelSeed : Option PyVal → PyVal
  | none => .str "unknownLabel"
  | some v => v

structure SrcCheckItem where
  id : Option PyVal          -- `ci_item["id"]`, KeyError when absent
  name : Fld String
  is_completed : Fld Int
deriving DecidableEq, Repr

structure SrcChecklist where
  id : Option PyVal          -- `ch["id"]`, KeyError when absent
  name : Fld String
  checklists_items : Fld (List SrcCheckItem)
deriving DecidableEq, Repr

structure SrcCard where
  id : Option PyVal          -- `card_item["id"]`, KeyError when absent
  name : Fld String
  description : Fld String
  due_date : Fld String
  is_archived : Fld Int
  cards_labels : Fld (List SrcLabel)
  cards_checklists : Fld (List SrcChecklist)
deriving DecidableEq, Repr

structure SrcList where
  id : Option PyVal          -- `list_item["id"]`, KeyError when absent
  name : Fld String
  position : Option Int      -- models `.get("position", 0)` (numeric or absent)
  is_archived : Fld Int
  board_id : Option PyVal    -- models `.get("board_id", 12345)` (first list only)
  cards : Fld (List SrcCard)
deriving DecidableEq, Repr

/-! ## Target records -/

structure EmojiData where
  emoji : List (String × String)   -- always the empty dict
deriving DecidableEq, Repr

structure LimitEntry where
  status : String
  disableAt : Nat
  warnAt : Nat
deriving DecidableEq, Repr

structure TargetLabel where
  id : String
  idBoard : String
  name : String
  color : String
  uses : Nat
deriving DecidableEq, Repr

structure TargetList where
  id : String
  name : String
  closed : Bool
  idBoard : String
  pos : Int
  idOrganization : String
deriving DecidableEq, Repr

structure TargetCheckItem where
  id : String
  name : Option String       -- can be null (source null name passes through)
  pos : Int
  state : String
  due : Option String
  dueReminder : Option String
  idMember : Option String
  idChecklist : String
  nameData : EmojiData
deriving DecidableEq, Repr

structure TargetChecklist where
  id : String
  name : String
  idBoard : String
  idCard : String
  pos : Int
  limits : LimitEntry        -- `{"checkItems": {"perChecklist": …}}`
  checkItems : List TargetCheckItem
  creationMethod : Option String
deriving DecidableEq, Repr

structure Cover where
  idAttachment : Option String
  color : Option String
  idUploadedBackground : Option String
  size : String
  brightness : String
  idPlugin : Option String
deriving DecidableEq, Repr

structure TargetCard where
  id : String
  name : String
  desc : String
  closed : Bool
  idBoard : String
  idList : String
  pos : Int
  idShort : Nat
  shortLink : String
  idLabels : List String
  labels : List TargetLabel
  idChecklists : List String
  due : Option String
  dueComplete : Bool
  dateLastActivity : String
  descData : EmojiData
  idAttachmentCover : Option String
  idMembersVoted : List String
  idOrganization : String
  attachments : List String
  subscribed : Bool
  cover : Cover
  manualCoverAttachment : Bool
  isTemplate : Bool
  cardRole : Option String
  creationMethod : Option String
  customFieldItems : List String
  pluginData : List String
deriving DecidableEq, Repr

structure LabelNames where
  green : String
  yellow : String
  orange : String
  red : String
  purple : String
  blue : String
deriving DecidableEq, Repr

structure EmptyPrefs where
  permissionLevel : String
  hideVotes : Bool
  voting : String
  comments : String
  invitations : String
  selfJoin : Bool
  cardCovers : Bool
  cardAging : String
  calendarFeedEnabled : Bool
  background : String
  backgroundColor : String
  backgroundTile : Bool
  backgroundBrightness : String
  canBePublic : Bool
  canBeEnterprise : Bool
  canBeOrg : Bool
  canBePrivate : Bool
  canInvite : Bool
deriving DecidableEq, Repr

structure Prefs where
  permissionLevel : String
  hideVotes : Bool
  voting : String
  comments : String
  invitations : String
  selfJoin : Bool
  cardCovers : Bool
  cardAging : String
  calendarFeedEnabled : Bool
  background : String
  backgroundColor : String
  backgroundImage : Option String
  backgroundTile : Bool
  backgroundBrightness : String
  canBePublic : Bool
  canBeEnterprise : Bool
  canBeOrg : Bool
  canBePrivate : Bool
  canInvite : Bool
deriving DecidableEq, Repr

structure Membership where
  id : String
  idMember : String
  memberType : String
  unconfirmed : Bool
  deactivated : Bool
deriving DecidableEq, Repr

structure Limits where
  attachments_perBoard : LimitEntry
  attachments_perCard : LimitEntry
  boards_totalMembersPerBoard : LimitEntry
  boards_totalAccessRequestsPerBoard : LimitEntry
  cards_openPerBoard : LimitEntry
  cards_openPerList : LimitEntry
  cards_totalPerBoard : LimitEntry
  cards_totalPerList : LimitEntry
  checklists_perBoard : LimitEntry
  checklists_perCard : LimitEntry
  checkItems_perChecklist : LimitEntry
  customFields_perBoard : LimitEntry
  customFieldOptions_perField : LimitEntry
  labels_perBoard : LimitEntry
  lists_openPerBoard : LimitEntry
  lists_totalPerBoard : LimitEntry
  stickers_perCard : LimitEntry
  reactions_perAction : LimitEntry
  reactions_uniquePerAction : LimitEntry
deriving DecidableEq, Repr

structure EmptyBoard where
  id : String
  name : String
  desc : String
  closed : Bool
  idOrganization : String
  pinned : Bool
  url : String
  shortLink : String
  shortUrl : String
  subscribed : Bool
  labelNames : LabelNames
  prefs : EmptyPrefs
  members : List String
  lists : List TargetList
  cards : List TargetCard
  labels : List TargetLabel
  actions : List String
  checklists : List TargetChecklist
  customFields : List String
deriving DecidableEq, Repr

structure TrelloBoard where
  id : String
  nodeId : String
  name : String
  desc : String
  descData : Option EmojiData
  closed : Bool
  dateClosed : Option String
  idOrganization : String
  idEnterprise : Option String
  limits : Limits
  pinned : Bool
  starred : Bool
  url : String
  prefs : Prefs
  shortLink : String
  subscribed : Bool
  labelNames : LabelNames
  powerUps : List String
  dateLastActivity : String
  dateLastView : String
  shortUrl : String
  idTags : List String
  datePluginDisable : Option String
  creationMethod : Option String
  ixUpdate : String
  templateGallery : Option String
  enterpriseOwned : Bool
  idBoardSource : Option String
  premiumFeatures : List String
  idMemberCreator : String
  type : Option String
  actions : List String
  cards : List TargetCard
  labels : List TargetLabel
  lists : List TargetList
  members : List String
  checklists : List TargetChecklist
  customFields : List String
  memberships : List Membership
  pluginData : List String
deriving DecidableEq, Repr

inductive ConvResult where
  | empty (b : EmptyBoard)
  | full (b : TrelloBoard)
deriving DecidableEq, Repr

/-! ## Label deduplication (`board_labels_dict`, `get_or_create_board_label`)

The Python dict preserves insertion order, so we model it as an association
list with new keys appended at the end. -/

/-- The palette table `COLOR_MAPPING`: hex → (trello_color, label_name). -/
def COLOR_MAPPING : List (String × String × String) :=
  [("#0091ff", "blue", "INFO"),
   ("#baa1e6", "purple", "FETAL"),
   ("#f47564", "red", "CRITICAL"),
   ("#f7b09c", "pink", "ERROR"),
   ("#ffce54", "orange", "WARNING")]

/-- Models `COLOR_MAPPING.get(hex, emptyDict)` for a string key. -/
def lookupColor (hex : String) : Option (String × String) :=
  (COLOR_MAPPING.find? (fun e => e.1 = hex)).map (fun e => e.2)

/-- Models `restya_label.get("color", "")` followed by the palette
lookup; an
absent color looks up the key `""`, a null color looks up `None` (matching
no entry). -/
def colorLookup : Fld String → Option (String × String)
  | none => lookupColor ""
  | some none => none
  | some (some s) => lookupColor s

/-- The canonical (trello_color, label_name) pair of a source label,
with the `("green", "正常")` fallback of lines 168-171. -/
def resolvePair (lb : SrcLabel) : String × String :=
  let mapped := colorLookup lb.color
  let trello_color := (mapped.map (fun e => e.1)).getD ""
  let label_name := (mapped.map (fun e => e.2)).getD ""
  if trello_color = "" ∧ label_name = "" then ("green", "正常")
  else (trello_color, label_name)

/-- The dict `board_labels_dict`, insertion-ordered. -/
abbrev LabelMap : Type := List ((String × String) × TargetLabel)

def lookupLabel (st : LabelMap) (k : String × String) : Option TargetLabel :=
  (List.find? (fun e => e.1 = k) st).map (fun e => e.2)

/-- Function `get_or_create_board_label`, returning the (possibly
extended) map and
the canonical label for the key. -/
def get_or_create_board_label (board_id : String) (st : LabelMap)
    (lb : SrcLabel) : LabelMap × TargetLabel :=
  let k := resolvePair lb
  match lookupLabel st k with
  | some l => (st, l)
  | none =>
      let l : TargetLabel :=
        { id := gen_trello_id (labelSeed lb.id), idBoard := board_id,
          name := k.2, color := k.1, uses := 0 }
      (st ++ [(k, l)], l)

/-- Models `label_obj["uses"] += 1`: in-place bump of the canonical
entry. -/
def bumpUses (st : LabelMap) (k : String × String) : LabelMap :=
  List.map (fun e => if e.1 = k then (e.1, { e.2 with uses := e.2.uses + 1 }) else e) st

/-- Lines 228-239: resolve one card label reference, bump `uses`, and return
the id for `idLabels` plus the denormalized copy for `labels`. -/
def processLabelRef (board_id : String) (st : LabelMap) (lb : SrcLabel) :
    LabelMap × String × TargetLabel :=
  let r := get_or_create_board_label board_id st lb
  (bumpUses r.1 (resolvePair lb), r.2.id, { r.2 with uses := r.2.uses + 1 })

/-- The loop over `card_item["cards_labels"]`. -/
def processCardLabels (board_id : String) :
    LabelMap → List SrcLabel → LabelMap × List String × List TargetLabel
  | st, [] => (st, [], [])
  | st, lb :: rest =>
      let r := processLabelRef board_id st lb
      let r2 := processCardLabels board_id r.1 rest
      (r2.1, r.2.1 :: r2.2.1, r.2.2 :: r2.2.2)

/-! ## Hierarchy flattening -/

def id_organization : String := "5b7a154eae8467f69089c4"
def id_member_creator : String := "596d59cbd14b2ed4c5909b"

/-- Lines 250-263: one check item; `ci_item["id"]` raises when absent. -/
def mkCheckItem (ch_id : String) (cii : Nat) (it : SrcCheckItem) :
    Option TargetCheckItem :=
  match it.id with
  | none => none
  | some v =>
      some { id := gen_trello_id v,
             name := fldItemName it.name,
             pos := 16384 * (cii : Int),
             state := if fldEqOne it.is_completed then "complete" else "incomplete",
             due := none, dueReminder := none, idMember := none,
             idChecklist := ch_id, nameData := ⟨[]⟩ }

def processCheckItems (ch_id : String) :
    Nat → List SrcCheckItem → Option (List TargetCheckItem)
  | _, [] => some []
  | cii, it :: rest =>
      match mkCheckItem ch_id cii it with
      | none => none
      | some t =>
          match processCheckItems ch_id (cii + 1) rest with
          | none => none
          | some ts => some (t :: ts)

/-- Lines 244-281: one checklist; `ch["id"]` raises when absent. -/
def mkChecklist (board_id card_id : String) (chi : Nat) (ch : SrcChecklist) :
    Option TargetChecklist :=
  match ch.id with
  | none => none
  | some v =>
      let ch_id := gen_trello_id v
      match processCheckItems ch_id 1 (fldList ch.checklists_items) with
      | none => none
      | some items =>
          some { id := ch_id, name := fldChecklistName ch.name,
                 idBoard := board_id, idCard := card_id,
                 pos := 16384 * (chi : Int),
                 limits := ⟨"ok", 200, 160⟩,
                 checkItems := items, creationMethod := none }

def processChecklists (board_id card_id : String) :
    Nat → List SrcChecklist → Option (List TargetChecklist)
  | _, [] => some []
  | chi, ch :: rest =>
      match mkChecklist board_id card_id chi ch with
      | none => none
      | some t =>
          match processChecklists board_id card_id (chi + 1) rest with
          | none => none
          | some ts => some (t :: ts)

/-- The card object of lines 287-323, for a card whose id value is `v`. -/
def mkCardObj (board_id list_id : String) (list_pos : Int) (now : String)
    (st : LabelMap) (counter ci : Nat) (c : SrcCard) (v : PyVal)
    (chks : List TargetChecklist) : TargetCard :=
  { id := gen_trello_id v, name := fldOrEmpty c.name,
    desc := fldOrEmpty c.description, closed := fldEqOne c.is_archived,
    idBoard := board_id, idList := list_id,
    pos := list_pos + (ci : Int) * 16384, idShort := counter,
    shortLink := gen_short_link (gen_trello_id v),
    idLabels := (processCardLabels board_id st (fldList c.cards_labels)).2.1,
    labels := (processCardLabels board_id st (fldList c.cards_labels)).2.2,
    idChecklists := chks.map (fun t => t.id),
    due := normalize_due (fldDue c.due_date), dueComplete := false,
    dateLastActivity := now, descData := ⟨[]⟩,
    idAttachmentCover := none, idMembersVoted := [],
    idOrganization := id_organization, attachments := [],
    subscribed := false,
    cover := { idAttachment := none, color := none,
               idUploadedBackground := none, size := "normal",
               brightness := "dark", idPlugin := none },
    manualCoverAttachment := false, isTemplate := false,
    cardRole := none, creationMethod := none,
    customFieldItems := [], pluginData := [] }

/-- Lines 217-324: one card; `card_item["id"]` raises when absent.
`now` models `datetime.datetime.utcnow().isoformat() + 'Z'`. -/
def processCard (board_id list_id : String) (list_pos : Int) (now : String)
    (st : LabelMap) (counter ci : Nat) (c : SrcCard) :
    Option (LabelMap × TargetCard × List TargetChecklist) :=
  match c.id with
  | none => none
  | some v =>
      match processChecklists board_id (gen_trello_id v) 1
          (fldList c.cards_checklists) with
      | none => none
      | some chks =>
          some ((processCardLabels board_id st (fldList c.cards_labels)).1,
                mkCardObj board_id list_id list_pos now st counter ci c v chks,
                chks)

/-- The inner loop over one list's cards.  `counter` is the board-global
`card_counter`; `ci` the 1-based per-list rank. -/
def processCards (board_id list_id : String) (list_pos : Int) (now : String) :
    LabelMap → Nat → Nat → List SrcCard →
    Option (LabelMap × Nat × List TargetCard × List TargetChecklist)
  | st, counter, _, [] => some (st, counter, [], [])
  | st, counter, ci, c :: rest =>
      (processCard board_id list_id list_pos now st counter ci c).bind
        (fun r =>
          (processCards board_id list_id list_pos now r.1 (counter + 1)
              (ci + 1) rest).bind
            (fun r2 => some (r2.1, r2.2.1, r.2.1 :: r2.2.2.1,
              r.2.2 ++ r2.2.2.2)))

/-- The outer loop over the sorted lists (lines 202-324).  `li` is the
1-based list rank; `list_item["id"]` raises when absent. -/
def processLists (board_id : String) (now : String) :
    LabelMap → Nat → Nat → List SrcList →
    Option (LabelMap × Nat × List TargetList × List TargetCard ×
            List TargetChecklist)
  | st, counter, _, [] => some (st, counter, [], [], [])
  | st, counter, li, l :: rest =>
      match l.id with
      | none => none
      | some v =>
          (processCards board_id (gen_trello_id v) (16384 * (li : Int))
              now st counter 1 (fldList l.cards)).bind
            (fun r =>
              (processLists board_id now r.1 r.2.1 (li + 1) rest).bind
                (fun r2 =>
                  some (r2.1, r2.2.1,
                    { id := gen_trello_id v, name := fldOrEmpty l.name,
                      closed := fldEqOne l.is_archived, idBoard := board_id,
                      pos := 16384 * (li : Int),
                      idOrganization := id_organization } :: r2.2.2.1,
                    r.2.2.1 ++ r2.2.2.2.1, r.2.2.2 ++ r2.2.2.2.2)))

/-! ## Stable sort by position (line 186-189)

Python's `sorted` is a stable sort by the key `x.get("position", 0)`; any
stable sort by the same key produces the same list, so we model it with a
stable insertion sort. -/

/-- The sort key `x.get("position", 0)`. -/
def sortKey (l : SrcList) : Int := l.position.getD 0

/-- Insert `x` after every element with key `≤` its own (stable). -/
def insertByPos (x : SrcList) : List SrcList → List SrcList
  | [] => [x]
  | y :: ys =>
      if sortKey y ≤ sortKey x then y :: insertByPos x ys else x :: y :: ys

/-- Models `sorted(restya_data["data"], key=lambda x: x.get("position",
0))`. -/
def sortLists (xs : List SrcList) : List SrcList :=
  xs.foldl (fun acc x => insertByPos x acc) []

/-! ## Board assembly -/

def boardLimits : Limits :=
  { attachments_perBoard := ⟨"ok", 36000, 28800⟩,
    attachments_perCard := ⟨"ok", 1000, 800⟩,
    boards_totalMembersPerBoard := ⟨"ok", 1600, 1280⟩,
    boards_totalAccessRequestsPerBoard := ⟨"ok", 4000, 3200⟩,
    cards_openPerBoard := ⟨"ok", 5000, 4000⟩,
    cards_openPerList := ⟨"ok", 5000, 4000⟩,
    cards_totalPerBoard := ⟨"ok", 2000000, 1600000⟩,
    cards_totalPerList := ⟨"ok", 1000000, 800000⟩,
    checklists_perBoard := ⟨"ok", 1800000, 1440000⟩,
    checklists_perCard := ⟨"ok", 500, 400⟩,
    checkItems_perChecklist := ⟨"ok", 200, 160⟩,
    customFields_perBoard := ⟨"ok", 50, 40⟩,
    customFieldOptions_perField := ⟨"ok", 50, 40⟩,
    labels_perBoard := ⟨"ok", 1000, 800⟩,
    lists_openPerBoard := ⟨"ok", 500, 400⟩,
    lists_totalPerBoard := ⟨"ok", 3000, 2400⟩,
    stickers_perCard := ⟨"ok", 70, 56⟩,
    reactions_perAction := ⟨"ok", 900, 720⟩,
    reactions_uniquePerAction := ⟨"ok", 17, 14⟩ }

def boardPrefs : Prefs :=
  { permissionLevel := "org", hideVotes := false, voting := "disabled",
    comments := "members", invitations := "members", selfJoin := true,
    cardCovers := true, cardAging := "regular", calendarFeedEnabled := false,
    background := "green", backgroundColor := "#519839",
    backgroundImage := none, backgroundTile := false,
    backgroundBrightness := "dark", canBePublic := true,
    canBeEnterprise := true, canBeOrg := true, canBePrivate := true,
    canInvite := true }

/-- Lines 94-141: the minimal empty board emitted when `data` is falsy. -/
def emptyBoard : EmptyBoard :=
  { id := gen_trello_id (.int 12345),
    name := "TrelloBoard", desc := "", closed := false,
    idOrganization := "5b7a154eae842267f69089c4", pinned := false,
    url := "https://trello.com/b/ABCDEFGH/TrelloBoard",
    shortLink := "ABCDEFGH", shortUrl := "https://trello.com/b/ABCDEFGH",
    subscribed := false,
    labelNames := ⟨"", "", "", "", "", ""⟩,
    prefs := { permissionLevel := "org", hideVotes := false,
               voting := "disabled", comments := "members",
               invitations := "members", selfJoin := true, cardCovers := true,
               cardAging := "regular", calendarFeedEnabled := false,
               background := "green", backgroundColor := "#519839",
               backgroundTile := false, backgroundBrightness := "dark",
               canBePublic := true, canBeEnterprise := true, canBeOrg := true,
               canBePrivate := true, canInvite := true },
    members := [], lists := [], cards := [], labels := [], actions := [],
    checklists := [], customFields := [] }

/-- Lines 407-458: merge the flattened collections with the static
defaults into the final board object. -/
def assemble (board_id now : String)
    (r : LabelMap × Nat × List TargetList × List TargetCard ×
         List TargetChecklist) : TrelloBoard :=
  { id := board_id,
    nodeId := "ari:cloud:trello::board/workspace/" ++
      id_organization ++ "/" ++ board_id,
    name := "RestyaBoard", desc := "", descData := none,
    closed := false, dateClosed := none,
    idOrganization := id_organization, idEnterprise := none,
    limits := boardLimits, pinned := false, starred := false,
    url := "https://trello.com/b/CJYpRTwW/xxx", prefs := boardPrefs,
    shortLink := "CJYpRTwW", subscribed := false,
    labelNames := ⟨"", "", "", "", "", ""⟩, powerUps := [],
    dateLastActivity := now, dateLastView := now,
    shortUrl := "https://trello.com/b/CJYpRTwW", idTags := [],
    datePluginDisable := none, creationMethod := none,
    ixUpdate := "63", templateGallery := none,
    enterpriseOwned := false, idBoardSource := none,
    premiumFeatures := ["additionalBoardBackgrounds",
      "additionalStickers", "customBoardBackgrounds", "customEmoji",
      "customStickers", "plugins"],
    idMemberCreator := id_member_creator, type := none,
    actions := [], cards := r.2.2.2.1, labels := r.1.map (fun e => e.2),
    lists := r.2.2.1, members := [], checklists := r.2.2.2.2,
    customFields := [],
    memberships := [{ id := gen_trello_id (.str "boardmember"),
                      idMember := id_member_creator,
                      memberType := "admin", unconfirmed := false,
                      deactivated := false }],
    pluginData := [] }

/-- The whole transformation (`main` minus file/CLI glue).  The input is
the parsed document's `data` field; `now` stands for every
`datetime.datetime.utcnow().isoformat() + 'Z'` stamp of the run.  `none`
models a propagated `KeyError`. -/
def convert (input : Fld (List SrcList)) (now : String) : Option ConvResult :=
  match fldList input with
  | [] => some (.empty emptyBoard)
  | first :: rest =>
      let board_id := gen_trello_id (first.board_id.getD (.int 12345))
      (processLists board_id now [] 1 1 (sortLists (first :: rest))).map
        (fun r => .full (assemble board_id now r))

/-! ## Result extractors and statement-side definitions -/

/-- Did the conversion succeed with a full (non-empty-path) board? -/
def isFull : Option ConvResult → Bool
  | some (.full _) => true
  | _ => false

def fullCards : Option ConvResult → List TargetCard
  | some (.full b) => b.cards
  | _ => []

def fullLists : Option ConvResult → List TargetList
  | some (.full b) => b.lists
  | _ => []

def fullLabels : Option ConvResult → List TargetLabel
  | some (.full b) => b.labels
  | _ => []

def fullChecklists : Option ConvResult → List TargetChecklist
  | some (.full b) => b.checklists
  | _ => []

/-- The `id` of the emitted board, on either output path. -/
def resultId : Option ConvResult → Option String
  | some (.empty b) => some b.id
  | some (.full b) => some b.id
  | none => none

/-- Blank out exactly the two board-level timestamp fields. -/
def maskBoardTimes : ConvResult → ConvResult
  | .empty b => .empty b
  | .full b => .full { b with dateLastActivity := "", dateLastView := "" }

def maskCardTime (c : TargetCard) : TargetCard := { c with dateLastActivity := "" }

/-- Blank out the two board-level timestamps and each card's
`dateLastActivity`. -/
def maskAllTimes : ConvResult → ConvResult
  | .empty b => .empty b
  | .full b => .full { b with dateLastActivity := "", dateLastView := "",
                              cards := b.cards.map maskCardTime }

/-- Mask the card of a `processCard` result. -/
def maskCardRes (r : LabelMap × TargetCard × List TargetChecklist) :
    LabelMap × TargetCard × List TargetChecklist :=
  (r.1, maskCardTime r.2.1, r.2.2)

/-- Mask the cards of a `processCards` result. -/
def maskCardsRes (r : LabelMap × Nat × List TargetCard × List TargetChecklist) :
    LabelMap × Nat × List TargetCard × List TargetChecklist :=
  (r.1, r.2.1, r.2.2.1.map maskCardTime, r.2.2.2)

/-- Mask the cards of a `processLists` result. -/
def maskListsRes
    (r : LabelMap × Nat × List TargetList × List TargetCard ×
         List TargetChecklist) :
    LabelMap × Nat × List TargetList × List TargetCard ×
      List TargetChecklist :=
  (r.1, r.2.1, r.2.2.1, r.2.2.2.1.map maskCardTime, r.2.2.2.2)

/-- The `uses` of the canonical label at key `k` (0 when no such
label). -/
def usesOf (st : LabelMap) (k : String × String) : Nat :=
  match lookupLabel st k with
  | some l => l.uses
  | none => 0

/-- A checklist record that lacks its `id`, or one of whose check items
lacks its `id`. -/
def checklistMissingId (ch : SrcChecklist) : Prop :=
  ch.id = none ∨ ∃ it ∈ fldList ch.checklists_items, it.id = none

/-- A card record that lacks its `id`, or one of whose checklists does. -/
def cardMissingId (c : SrcCard) : Prop :=
  c.id = none ∨ ∃ ch ∈ fldList c.cards_checklists, checklistMissingId ch

/-- Some traversed list/card/checklist/check-item record lacks its `id`
key. -/
def anyMissingId (data : List SrcList) : Prop :=
  ∃ l ∈ data, l.id = none ∨ ∃ c ∈ fldList l.cards, cardMissingId c

/-- All label references of one card. -/
def cardRefs (c : SrcCard) : List SrcLabel := fldList c.cards_labels

/-- All label references of one list, card order. -/
def listRefs (l : SrcList) : List SrcLabel :=
  ((fldList l.cards).map cardRefs).flatten

/-- All label references of the whole board, traversal order. -/
def allRefs (data : List SrcList) : List SrcLabel :=
  (data.map listRefs).flatten

/-- The label-map evolution induced by a stream of references. -/
def labelFold (board_id : String) (st : LabelMap) (rs : List SrcLabel) :
    LabelMap :=
  rs.foldl (fun s lb => (processLabelRef board_id s lb).1) st

/-- The stable data of the canonical label at key `k`: id, color, name. -/
def infoOf (st : LabelMap) (k : String × String) :
    Option (String × String × String) :=
  (lookupLabel st k).map (fun l => (l.id, l.color, l.name))

/-- Index-annotated stable insertion: the comparison only reads the list's
position key, never the index. -/
def insertByPosI (x : Nat × SrcList) :
    List (Nat × SrcList) → List (Nat × SrcList)
  | [] => [x]
  | y :: ys =>
      if sortKey y.2 ≤ sortKey x.2 then y :: insertByPosI x ys else x :: y :: ys

/-- Index annotation, `enumFrom i xs = [(i, x0), (i+1, x1), …]`. -/
def enumFrom {α : Type} : Nat → List α → List (Nat × α)
  | _, [] => []
  | i, x :: xs => (i, x) :: enumFrom (i + 1) xs

/-- Index-annotated version of `sortLists`, used to state stability. -/
def sortListsI (xs : List SrcList) : List (Nat × SrcList) :=
  (enumFrom 0 xs).foldl (fun acc x => insertByPosI x acc) []

/-- The stable-tie-break order: earlier position key first, original input
index breaking ties. -/
def lexLt (a b : Nat × SrcList) : Prop :=
  sortKey a.2 < sortKey b.2 ∨ (sortKey a.2 = sortKey b.2 ∧ a.1 < b.1)

/-- Position keys of the cards of one list: `base + ci*BASE`, `ci = 1..n`. -/
def posSeq (base : Int) (n : Nat) : List Int :=
  (List.range' 1 n).map (fun (j : Nat) => base + (j : Int) * 16384)

/-! ## Concrete inputs for counterexamples and witnesses -/

/-- A source list with integer id, given cards, all optional keys absent. -/
def mkSrcList (i : Int) (cards : List SrcCard) : SrcList :=
  { id := some (.int i), name := none, position := none, is_archived := none,
    board_id := none, cards := some (some cards) }

/-- A source card with integer id, given labels and checklists, all other
keys absent. -/
def mkCard0 (i : Int) (lbs : List SrcLabel) (chs : List SrcChecklist) :
    SrcCard :=
  { id := some (.int i), name := none, description := none, due_date := none,
    is_archived := none, cards_labels := some (some lbs),
    cards_checklists := some (some chs) }

/-- One card carrying two distinct source labels that both resolve to the
fallback key. -/
def cexC1 : Fld (List SrcList) :=
  some (some [mkSrcList 1 [mkCard0 2
    [⟨some (.int 3), some (some "#000000")⟩,
     ⟨some (.int 4), some (some "#123456")⟩] []]])

/-- A minimal one-list-one-card input. -/
def cexC2 : Fld (List SrcList) :=
  some (some [mkSrcList 1 [mkCard0 2 [] []]])

/-- A checklist whose `name` key is absent, holding a check item whose
`name` is null. -/
def cexC3 : Fld (List SrcList) :=
  some (some [mkSrcList 1 [mkCard0 2 []
    [⟨some (.int 3), none, some (some [⟨some (.int 4), some none, none⟩])⟩]]])

/-- All lists and cards have ids, but a checklist lacks its `id` key. -/
def cexC4 : Fld (List SrcList) :=
  some (some [mkSrcList 1 [mkCard0 2 [] [⟨none, none, none⟩]]])

/-- One card with one label whose color has no palette entry. -/
def cexC5 : Fld (List SrcList) :=
  some (some [mkSrcList 1 [mkCard0 2
    [⟨some (.int 3), some (some "#000000")⟩] []]])

/-- One card with one label with a palette color. -/
def winC6 : Fld (List SrcList) :=
  some (some [mkSrcList 1 [mkCard0 2
    [⟨some (.int 3), some (some "#ffce54")⟩] []]])

/-- Two lists with out-of-order positions, each holding cards. -/
def winC7 : Fld (List SrcList) :=
  some (some [
    { mkSrcList 1 [mkCard0 2 [] [], mkCard0 3 [] []] with position := some 9 },
    { mkSrcList 4 [mkCard0 5 [] []] with position := some 2 }])

/-- A non-empty input whose first list lacks `board_id`. -/
def winC10 : Fld (List SrcList) :=
  some (some [mkSrcList 1 []])

/-! ## Helper lemmas -/

set_option maxRecDepth 100000
set_option maxHeartbeats 2000000

lemma convert_nil (input : Fld (List SrcList)) (now : String)
    (h : fldList input = []) : convert input now = some (.empty emptyBoard) := by
  unfold convert
  rw [h]

lemma convert_cons (input : Fld (List SrcList)) (now : String)
    (first : SrcList) (rest : List SrcList)
    (h : fldList input = first :: rest) :
    convert input now =
      (processLists (gen_trello_id (first.board_id.getD (.int 12345))) now
          [] 1 1 (sortLists (first :: rest))).map
        (fun r => .full
          (assemble (gen_trello_id (first.board_id.getD (.int 12345))) now r)) := by
  unfold convert
  rw [h]

lemma length_leBytes (k n : Nat) : (leBytes k n).length = k := by
  induction k generalizing n with
  | zero => rfl
  | succ k ih => simp [leBytes, ih]

lemma length_flatten_byteHex (l : List Nat) :
    ((l.map byteHex).flatten).length = 2 * l.length := by
  induction l with
  | nil => rfl
  | cons x xs ih =>
      simp [byteHex] at ih ⊢
      omega

lemma length_md5Hex (s : String) : (md5Hex s).length = 32 := by
  unfold md5Hex md5HexBytes
  generalize (chunks16 (bytesToWords (md5Pad (utf8 s)))).foldl md5Block
      (1732584193, 4023233417, 2562383102, 271733878) = q
  obtain ⟨a, b, c, d⟩ := q
  show (((leBytes 4 a ++ leBytes 4 b ++ leBytes 4 c ++ leBytes 4 d).map
      byteHex).flatten).length = 32
  rw [length_flatten_byteHex, List.length_append, List.length_append,
    List.length_append, length_leBytes, length_leBytes, length_leBytes,
    length_leBytes]

lemma length_strTake (s : String) (n : Nat) :
    (strTake s n).length = min n s.length := by
  show (s.data.take n).length = min n s.data.length
  exact List.length_take n s.data

lemma length_gen_trello_id (v : PyVal) : (gen_trello_id v).length = 24 := by
  unfold gen_trello_id
  rw [length_strTake, length_md5Hex]
  decide

lemma insertByPos_perm (x : SrcList) (l : List SrcList) :
    (insertByPos x l).Perm (x :: l) := by
  induction l with
  | nil => exact List.Perm.refl _
  | cons y ys ih =>
      by_cases h : sortKey y <= sortKey x
      · simp only [insertByPos, if_pos h]
        exact (ih.cons y).trans (List.Perm.swap x y ys)
      · simp only [insertByPos, if_neg h]
        exact List.Perm.refl _

lemma sortLists_perm (xs : List SrcList) : (sortLists xs).Perm xs := by
  suffices h : ∀ acc : List SrcList,
      (xs.foldl (fun a x => insertByPos x a) acc).Perm (acc ++ xs) by
    simpa using h []
  induction xs with
  | nil => intro acc; simp
  | cons x xs ih =>
      intro acc
      calc ((x :: xs).foldl (fun a x => insertByPos x a) acc)
          = xs.foldl (fun a x => insertByPos x a) (insertByPos x acc) := rfl
        _ ≈ insertByPos x acc ++ xs := ih _
        _ ≈ (x :: acc) ++ xs := ((insertByPos_perm x acc).append_right xs)
        _ ≈ acc ++ x :: xs := List.perm_middle.symm

lemma processCheckItems_none_iff (ch_id : String) (i : Nat)
    (items : List SrcCheckItem) :
    processCheckItems ch_id i items = none ↔ ∃ it ∈ items, it.id = none := by
  induction items generalizing i with
  | nil => simp [processCheckItems]
  | cons it rest ih =>
      cases hv : it.id with
      | none =>
          have hm : mkCheckItem ch_id i it = none := by
            simp [mkCheckItem, hv]
          simp only [processCheckItems]
          rw [hm]
          constructor
          · intro _
            exact ⟨it, List.mem_cons_self it rest, hv⟩
          · intro _
            rfl
      | some v =>
          cases hm : mkCheckItem ch_id i it with
          | none => simp [mkCheckItem, hv] at hm
          | some t =>
              simp only [processCheckItems]
              rw [hm]
              cases hr : processCheckItems ch_id (i + 1) rest with
              | none =>
                  obtain ⟨x, hx, hxe⟩ := (ih (i + 1)).mp hr
                  constructor
                  · intro _
                    exact ⟨x, List.mem_cons_of_mem it hx, hxe⟩
                  · intro _
                    rfl
              | some ts =>
                  constructor
                  · intro hcontra
                    simp at hcontra
                  · rintro ⟨x, hx, hxe⟩
                    rcases List.mem_cons.mp hx with rfl | hx2
                    · rw [hv] at hxe
                      cases hxe
                    · have h5 := (ih (i + 1)).mpr ⟨x, hx2, hxe⟩
                      rw [hr] at h5
                      cases h5

lemma mkChecklist_none_iff (bid cid : String) (chi : Nat)
    (ch : SrcChecklist) :
    mkChecklist bid cid chi ch = none ↔ checklistMissingId ch := by
  cases hv : ch.id with
  | none =>
      have hm : mkChecklist bid cid chi ch = none := by
        simp [mkChecklist, hv]
      rw [hm]
      simp [checklistMissingId, hv]
  | some v =>
      simp only [mkChecklist, hv]
      cases hr : processCheckItems (gen_trello_id v) 1
          (fldList ch.checklists_items) with
      | none =>
          have h2 := (processCheckItems_none_iff (gen_trello_id v) 1
            (fldList ch.checklists_items)).mp hr
          constructor
          · intro _
            exact Or.inr h2
          · intro _
            rfl
      | some items =>
          constructor
          · intro hcontra
            simp at hcontra
          · rintro (h | h)
            · rw [hv] at h
              cases h
            · have h5 := (processCheckItems_none_iff (gen_trello_id v) 1
                (fldList ch.checklists_items)).mpr h
              rw [hr] at h5
              cases h5

lemma processChecklists_none_iff (bid cid : String) (i : Nat)
    (chs : List SrcChecklist) :
    processChecklists bid cid i chs = none ↔
      ∃ ch ∈ chs, checklistMissingId ch := by
  induction chs generalizing i with
  | nil => simp [processChecklists]
  | cons ch rest ih =>
      simp only [processChecklists]
      cases hm : mkChecklist bid cid i ch with
      | none =>
          have h2 := (mkChecklist_none_iff bid cid i ch).mp hm
          constructor
          · intro _
            exact ⟨ch, List.mem_cons_self ch rest, h2⟩
          · intro _
            rfl
      | some t =>
          cases hr : processChecklists bid cid (i + 1) rest with
          | none =>
              obtain ⟨x, hx, hxe⟩ := (ih (i + 1)).mp hr
              constructor
              · intro _
                exact ⟨x, List.mem_cons_of_mem ch hx, hxe⟩
              · intro _
                rfl
          | some ts =>
              constructor
              · intro hcontra
                simp at hcontra
              · rintro ⟨x, hx, hxe⟩
                rcases List.mem_cons.mp hx with rfl | hx2
                · have h5 := (mkChecklist_none_iff bid cid i x).mpr hxe
                  rw [hm] at h5
                  cases h5
                · have h5 := (ih (i + 1)).mpr ⟨x, hx2, hxe⟩
                  rw [hr] at h5
                  cases h5

lemma processCard_none_iff (bid lid : String) (lp : Int) (now : String)
    (st : LabelMap) (cnt ci : Nat) (c : SrcCard) :
    processCard bid lid lp now st cnt ci c = none ↔ cardMissingId c := by
  cases hv : c.id with
  | none =>
      have hm : processCard bid lid lp now st cnt ci c = none := by
        simp [processCard, hv]
      rw [hm]
      simp [cardMissingId, hv]
  | some v =>
      simp only [processCard, hv]
      cases hr : processChecklists bid (gen_trello_id v) 1
          (fldList c.cards_checklists) with
      | none =>
          have h2 := (processChecklists_none_iff bid (gen_trello_id v) 1
            (fldList c.cards_checklists)).mp hr
          constructor
          · intro _
            exact Or.inr h2
          · intro _
            rfl
      | some chks =>
          constructor
          · intro hcontra
            simp at hcontra
          · rintro (h | h)
            · rw [hv] at h
              cases h
            · have h5 := (processChecklists_none_iff bid (gen_trello_id v) 1
                (fldList c.cards_checklists)).mpr h
              rw [hr] at h5
              cases h5

lemma processCards_none_iff (bid lid : String) (lp : Int) (now : String)
    (st : LabelMap) (cnt ci : Nat) (cs : List SrcCard) :
    processCards bid lid lp now st cnt ci cs = none ↔
      ∃ c ∈ cs, cardMissingId c := by
  induction cs generalizing st cnt ci with
  | nil => simp [processCards]
  | cons c rest ih =>
      simp only [processCards]
      cases hp : processCard bid lid lp now st cnt ci c with
      | none =>
          have h2 := (processCard_none_iff bid lid lp now st cnt ci c).mp hp
          constructor
          · intro _
            exact ⟨c, List.mem_cons_self c rest, h2⟩
          · intro _
            rfl
      | some r =>
          simp only [Option.some_bind]
          cases hr : processCards bid lid lp now r.1 (cnt + 1) (ci + 1)
              rest with
          | none =>
              obtain ⟨x, hx, hxe⟩ := (ih r.1 (cnt + 1) (ci + 1)).mp hr
              constructor
              · intro _
                exact ⟨x, List.mem_cons_of_mem c hx, hxe⟩
              · intro _
                rfl
          | some r2 =>
              constructor
              · intro hcontra
                simp at hcontra
              · rintro ⟨x, hx, hxe⟩
                rcases List.mem_cons.mp hx with rfl | hx2
                · have h5 := (processCard_none_iff bid lid lp now st cnt ci
                    x).mpr hxe
                  rw [hp] at h5
                  cases h5
                · have h5 := (ih r.1 (cnt + 1) (ci + 1)).mpr ⟨x, hx2, hxe⟩
                  rw [hr] at h5
                  cases h5

lemma processLists_none_iff (bid now : String) (st : LabelMap)
    (cnt li : Nat) (ls : List SrcList) :
    processLists bid now st cnt li ls = none ↔
      ∃ l ∈ ls, l.id = none ∨ ∃ c ∈ fldList l.cards, cardMissingId c := by
  induction ls generalizing st cnt li with
  | nil => simp [processLists]
  | cons l rest ih =>
      cases hv : l.id with
      | none =>
          simp only [processLists, hv]
          constructor
          · intro _
            exact ⟨l, List.mem_cons_self l rest, Or.inl hv⟩
          · intro _
            trivial
      | some v =>
          simp only [processLists, hv]
          cases hp : processCards bid (gen_trello_id v) (16384 * (li : Int))
              now st cnt 1 (fldList l.cards) with
          | none =>
              obtain ⟨x, hx, hxe⟩ := (processCards_none_iff bid
                (gen_trello_id v) (16384 * (li : Int)) now st cnt 1
                (fldList l.cards)).mp hp
              constructor
              · intro _
                exact ⟨l, List.mem_cons_self l rest, Or.inr ⟨x, hx, hxe⟩⟩
              · intro _
                rfl
          | some r =>
              simp only [Option.some_bind]
              cases hr : processLists bid now r.1 r.2.1 (li + 1) rest with
              | none =>
                  obtain ⟨x, hx, hxe⟩ := (ih r.1 r.2.1 (li + 1)).mp hr
                  constructor
                  · intro _
                    exact ⟨x, List.mem_cons_of_mem l hx, hxe⟩
                  · intro _
                    rfl
              | some r2 =>
                  constructor
                  · intro hcontra
                    simp at hcontra
                  · rintro ⟨x, hx, hxe⟩
                    rcases List.mem_cons.mp hx with rfl | hx2
                    · rcases hxe with h | ⟨y, hy, hye⟩
                      · rw [hv] at h
                        cases h
                      · have h5 := (processCards_none_iff bid
                          (gen_trello_id v) (16384 * (li : Int)) now st cnt 1
                          (fldList x.cards)).mpr ⟨y, hy, hye⟩
                        rw [hp] at h5
                        cases h5
                    · have h5 := (ih r.1 r.2.1 (li + 1)).mpr ⟨x, hx2, hxe⟩
                      rw [hr] at h5
                      cases h5

lemma processCard_eq_some_iff (bid lid : String) (lp : Int) (now : String)
    (st : LabelMap) (cnt ci : Nat) (c : SrcCard)
    (r : LabelMap × TargetCard × List TargetChecklist) :
    processCard bid lid lp now st cnt ci c = some r ↔
      ∃ v chks, c.id = some v ∧
        processChecklists bid (gen_trello_id v) 1
          (fldList c.cards_checklists) = some chks ∧
        r = ((processCardLabels bid st (fldList c.cards_labels)).1,
             mkCardObj bid lid lp now st cnt ci c v chks, chks) := by
  cases hv : c.id with
  | none => simp [processCard, hv]
  | some v =>
      simp only [processCard, hv]
      cases hr : processChecklists bid (gen_trello_id v) 1
          (fldList c.cards_checklists) with
      | none => simp [hr]
      | some chks =>
          simp [hr, eq_comm]

lemma processCard_idShort (bid lid : String) (lp : Int) (now : String)
    (st : LabelMap) (cnt ci : Nat) (c : SrcCard)
    (r : LabelMap × TargetCard × List TargetChecklist)
    (h : processCard bid lid lp now st cnt ci c = some r) :
    r.2.1.idShort = cnt := by
  obtain ⟨v, chks, hv, hch, rfl⟩ := (processCard_eq_some_iff bid lid lp now
    st cnt ci c r).mp h
  rfl

lemma processCards_idShort (bid lid : String) (lp : Int) (now : String)
    (cs : List SrcCard) :
    ∀ (st : LabelMap) (cnt ci : Nat)
      (r : LabelMap × Nat × List TargetCard × List TargetChecklist),
      processCards bid lid lp now st cnt ci cs = some r →
      r.2.2.1.map (fun c => c.idShort) = List.range' cnt r.2.2.1.length ∧
      r.2.1 = cnt + r.2.2.1.length := by
  induction cs with
  | nil =>
      intro st cnt ci r h
      simp only [processCards, Option.some.injEq] at h
      rw [← h]
      simp
  | cons c rest ih =>
      intro st cnt ci r h
      simp only [processCards] at h
      cases hp : processCard bid lid lp now st cnt ci c with
      | none => rw [hp] at h; simp at h
      | some rc =>
          rw [hp] at h
          simp only [Option.some_bind] at h
          cases hr : processCards bid lid lp now rc.1 (cnt + 1) (ci + 1)
              rest with
          | none => rw [hr] at h; simp at h
          | some r2 =>
              rw [hr] at h
              simp only [Option.some_bind, Option.some.injEq] at h
              obtain ⟨hmap, hcnt⟩ := ih rc.1 (cnt + 1) (ci + 1) r2 hr
              have hcard : rc.2.1.idShort = cnt :=
                processCard_idShort bid lid lp now st cnt ci c rc hp
              rw [← h]
              constructor
              · show (rc.2.1 :: r2.2.2.1).map (fun c => c.idShort) =
                  List.range' cnt (rc.2.1 :: r2.2.2.1).length
                rw [List.map_cons, hcard, hmap, List.length_cons,
                  List.range'_succ]
              · show r2.2.1 = cnt + (rc.2.1 :: r2.2.2.1).length
                rw [List.length_cons, hcnt]
                omega

lemma processLists_idShort (bid now : String) (ls : List SrcList) :
    ∀ (st : LabelMap) (cnt li : Nat)
      (r : LabelMap × Nat × List TargetList × List TargetCard ×
           List TargetChecklist),
      processLists bid now st cnt li ls = some r →
      r.2.2.2.1.map (fun c => c.idShort) =
        List.range' cnt r.2.2.2.1.length ∧
      r.2.1 = cnt + r.2.2.2.1.length := by
  induction ls with
  | nil =>
      intro st cnt li r h
      simp only [processLists, Option.some.injEq] at h
      rw [← h]
      simp
  | cons l rest ih =>
      intro st cnt li r h
      cases hv : l.id with
      | none => simp [processLists, hv] at h
      | some v =>
          simp only [processLists, hv] at h
          cases hp : processCards bid (gen_trello_id v) (16384 * (li : Int))
              now st cnt 1 (fldList l.cards) with
          | none => rw [hp] at h; simp at h
          | some rc =>
              rw [hp] at h
              simp only [Option.some_bind] at h
              cases hr : processLists bid now rc.1 rc.2.1 (li + 1) rest with
              | none => rw [hr] at h; simp at h
              | some r2 =>
                  rw [hr] at h
                  simp only [Option.some_bind, Option.some.injEq] at h
                  obtain ⟨hmap1, hcnt1⟩ := processCards_idShort bid
                    (gen_trello_id v) (16384 * (li : Int)) now
                    (fldList l.cards) st cnt 1 rc hp
                  obtain ⟨hmap2, hcnt2⟩ := ih rc.1 rc.2.1 (li + 1) r2 hr
                  rw [← h]
                  constructor
                  · show (rc.2.2.1 ++ r2.2.2.2.1).map (fun c => c.idShort) =
                      List.range' cnt (rc.2.2.1 ++ r2.2.2.2.1).length
                    rw [List.map_append, hmap1, hmap2, List.length_append,
                      hcnt1]
                    have hra := List.range'_append cnt rc.2.2.1.length
                      r2.2.2.2.1.length 1
                    simp only [one_mul] at hra
                    rw [hra]
                    congr 1
                    omega
                  · show r2.2.1 = cnt + (rc.2.2.1 ++ r2.2.2.2.1).length
                    rw [List.length_append, hcnt2, hcnt1]
                    omega

lemma processCard_mask (bid lid : String) (lp : Int) (n1 n2 : String)
    (st : LabelMap) (cnt ci : Nat) (c : SrcCard) :
    (processCard bid lid lp n1 st cnt ci c).map maskCardRes =
      (processCard bid lid lp n2 st cnt ci c).map maskCardRes := by
  cases hv : c.id with
  | none => simp [processCard, hv]
  | some v =>
      simp only [processCard, hv]
      cases hr : processChecklists bid (gen_trello_id v) 1
          (fldList c.cards_checklists) with
      | none => rfl
      | some chks => rfl

lemma processCards_mask (bid lid : String) (lp : Int) (n1 n2 : String)
    (cs : List SrcCard) :
    ∀ (st : LabelMap) (cnt ci : Nat),
      (processCards bid lid lp n1 st cnt ci cs).map maskCardsRes =
        (processCards bid lid lp n2 st cnt ci cs).map maskCardsRes := by
  induction cs with
  | nil => intro st cnt ci; rfl
  | cons c rest ih =>
      intro st cnt ci
      simp only [processCards]
      have hc := processCard_mask bid lid lp n1 n2 st cnt ci c
      cases hp1 : processCard bid lid lp n1 st cnt ci c with
      | none =>
          rw [hp1] at hc
          cases hp2 : processCard bid lid lp n2 st cnt ci c with
          | none => rfl
          | some rc2 => rw [hp2] at hc; simp at hc
      | some rc1 =>
          rw [hp1] at hc
          cases hp2 : processCard bid lid lp n2 st cnt ci c with
          | none => rw [hp2] at hc; simp at hc
          | some rc2 =>
              rw [hp2] at hc
              simp only [Option.map_some, Option.map_some',
                Option.some.injEq] at hc
              have h1 : rc1.1 = rc2.1 := congrArg (fun x => x.1) hc
              have hcard : maskCardTime rc1.2.1 = maskCardTime rc2.2.1 :=
                congrArg (fun x => x.2.1) hc
              have hchk : rc1.2.2 = rc2.2.2 := congrArg (fun x => x.2.2) hc
              simp only [Option.some_bind]
              rw [← h1]
              have hrec := ih rc1.1 (cnt + 1) (ci + 1)
              cases hq1 : processCards bid lid lp n1 rc1.1 (cnt + 1) (ci + 1)
                  rest with
              | none =>
                  rw [hq1] at hrec
                  cases hq2 : processCards bid lid lp n2 rc1.1 (cnt + 1)
                      (ci + 1) rest with
                  | none => rfl
                  | some r2 => rw [hq2] at hrec; simp at hrec
              | some r2a =>
                  rw [hq1] at hrec
                  cases hq2 : processCards bid lid lp n2 rc1.1 (cnt + 1)
                      (ci + 1) rest with
                  | none => rw [hq2] at hrec; simp at hrec
                  | some r2b =>
                      rw [hq2] at hrec
                      simp only [Option.map_some, Option.map_some',
                        Option.some.injEq] at hrec
                      have e1 : r2a.1 = r2b.1 := congrArg (fun x => x.1) hrec
                      have e2 : r2a.2.1 = r2b.2.1 :=
                        congrArg (fun x => x.2.1) hrec
                      have e3 : r2a.2.2.1.map maskCardTime =
                          r2b.2.2.1.map maskCardTime :=
                        congrArg (fun x => x.2.2.1) hrec
                      have e4 : r2a.2.2.2 = r2b.2.2.2 :=
                        congrArg (fun x => x.2.2.2) hrec
                      show some (maskCardsRes (r2a.1, r2a.2.1,
                          rc1.2.1 :: r2a.2.2.1, rc1.2.2 ++ r2a.2.2.2)) =
                        some (maskCardsRes (r2b.1, r2b.2.1,
                          rc2.2.1 :: r2b.2.2.1, rc2.2.2 ++ r2b.2.2.2))
                      show some (r2a.1, r2a.2.1,
                          maskCardTime rc1.2.1 :: r2a.2.2.1.map maskCardTime,
                          rc1.2.2 ++ r2a.2.2.2) =
                        some (r2b.1, r2b.2.1,
                          maskCardTime rc2.2.1 :: r2b.2.2.1.map maskCardTime,
                          rc2.2.2 ++ r2b.2.2.2)
                      rw [e1, e2, hcard, e3, hchk, e4]

lemma processLists_mask (bid : String) (n1 n2 : String) (ls : List SrcList) :
    ∀ (st : LabelMap) (cnt li : Nat),
      (processLists bid n1 st cnt li ls).map maskListsRes =
        (processLists bid n2 st cnt li ls).map maskListsRes := by
  induction ls with
  | nil => intro st cnt li; rfl
  | cons l rest ih =>
      intro st cnt li
      cases hv : l.id with
      | none => simp [processLists, hv]
      | some v =>
          simp only [processLists, hv]
          have hc := processCards_mask bid (gen_trello_id v)
            (16384 * (li : Int)) n1 n2 (fldList l.cards) st cnt 1
          cases hp1 : processCards bid (gen_trello_id v) (16384 * (li : Int))
              n1 st cnt 1 (fldList l.cards) with
          | none =>
              rw [hp1] at hc
              cases hp2 : processCards bid (gen_trello_id v)
                  (16384 * (li : Int)) n2 st cnt 1 (fldList l.cards) with
              | none => rfl
              | some rc2 => rw [hp2] at hc; simp at hc
          | some rc1 =>
              rw [hp1] at hc
              cases hp2 : processCards bid (gen_trello_id v)
                  (16384 * (li : Int)) n2 st cnt 1 (fldList l.cards) with
              | none => rw [hp2] at hc; simp at hc
              | some rc2 =>
                  rw [hp2] at hc
                  simp only [Option.map_some, Option.map_some',
                    Option.some.injEq] at hc
                  have h1 : rc1.1 = rc2.1 := congrArg (fun x => x.1) hc
                  have h2 : rc1.2.1 = rc2.2.1 :=
                    congrArg (fun x => x.2.1) hc
                  have h3 : rc1.2.2.1.map maskCardTime =
                      rc2.2.2.1.map maskCardTime :=
                    congrArg (fun x => x.2.2.1) hc
                  have h4 : rc1.2.2.2 = rc2.2.2.2 :=
                    congrArg (fun x => x.2.2.2) hc
                  simp only [Option.some_bind]
                  rw [← h1, ← h2]
                  have hrec := ih rc1.1 rc1.2.1 (li + 1)
                  cases hq1 : processLists bid n1 rc1.1 rc1.2.1 (li + 1)
                      rest with
                  | none =>
                      rw [hq1] at hrec
                      cases hq2 : processLists bid n2 rc1.1 rc1.2.1 (li + 1)
                          rest with
                      | none => rfl
                      | some r2 => rw [hq2] at hrec; simp at hrec
                  | some r2a =>
                      rw [hq1] at hrec
                      cases hq2 : processLists bid n2 rc1.1 rc1.2.1 (li + 1)
                          rest with
                      | none => rw [hq2] at hrec; simp at hrec
                      | some r2b =>
                          rw [hq2] at hrec
                          simp only [Option.map_some, Option.map_some',
                            Option.some.injEq] at hrec
                          have e1 : r2a.1 = r2b.1 :=
                            congrArg (fun x => x.1) hrec
                          have e2 : r2a.2.1 = r2b.2.1 :=
                            congrArg (fun x => x.2.1) hrec
                          have e3 : r2a.2.2.1 = r2b.2.2.1 :=
                            congrArg (fun x => x.2.2.1) hrec
                          have e4 : r2a.2.2.2.1.map maskCardTime =
                              r2b.2.2.2.1.map maskCardTime :=
                            congrArg (fun x => x.2.2.2.1) hrec
                          have e5 : r2a.2.2.2.2 = r2b.2.2.2.2 :=
                            congrArg (fun x => x.2.2.2.2) hrec
                          show some (maskListsRes (r2a.1, r2a.2.1,
                              { id := gen_trello_id v,
                                name := fldOrEmpty l.name,
                                closed := fldEqOne l.is_archived,
                                idBoard := bid, pos := 16384 * (li : Int),
                                idOrganization := id_organization } ::
                                r2a.2.2.1,
                              rc1.2.2.1 ++ r2a.2.2.2.1,
                              rc1.2.2.2 ++ r2a.2.2.2.2)) =
                            some (maskListsRes (r2b.1, r2b.2.1,
                              { id := gen_trello_id v,
                                name := fldOrEmpty l.name,
                                closed := fldEqOne l.is_archived,
                                idBoard := bid, pos := 16384 * (li : Int),
                                idOrganization := id_organization } ::
                                r2b.2.2.1,
                              rc2.2.2.1 ++ r2b.2.2.2.1,
                              rc2.2.2.2 ++ r2b.2.2.2.2))
                          show some (r2a.1, r2a.2.1,
                              ({ id := gen_trello_id v,
                                 name := fldOrEmpty l.name,
                                 closed := fldEqOne l.is_archived,
                                 idBoard := bid, pos := 16384 * (li : Int),
                                 idOrganization := id_organization } :
                                 TargetList) :: r2a.2.2.1,
                              (rc1.2.2.1 ++ r2a.2.2.2.1).map maskCardTime,
                              rc1.2.2.2 ++ r2a.2.2.2.2) =
                            some (r2b.1, r2b.2.1,
                              ({ id := gen_trello_id v,
                                 name := fldOrEmpty l.name,
                                 closed := fldEqOne l.is_archived,
                                 idBoard := bid, pos := 16384 * (li : Int),
                                 idOrganization := id_organization } :
                                 TargetList) :: r2b.2.2.1,
                              (rc2.2.2.1 ++ r2b.2.2.2.1).map maskCardTime,
                              rc2.2.2.2 ++ r2b.2.2.2.2)
                          simp only [List.map_append]
                          rw [e1, e2, e3, h3, e4, h4, e5]

lemma lookupLabel_cons (e : (String × String) × TargetLabel)
    (st : LabelMap) (k : String × String) :
    lookupLabel (e :: st) k =
      if e.1 = k then some e.2 else lookupLabel st k := by
  by_cases h : e.1 = k
  · simp [lookupLabel, List.find?_cons_of_pos, h]
  · simp [lookupLabel, List.find?_cons_of_neg, h]

lemma keys_bumpUses (st : LabelMap) (k : String × String) :
    (bumpUses st k).map (fun e => e.1) = st.map (fun e => e.1) := by
  induction st with
  | nil => rfl
  | cons e es ih =>
      by_cases h : e.1 = k <;>
        simp only [bumpUses, List.map_cons, if_pos, if_neg, h, ite_true,
          ite_false, if_true, if_false] <;>
        simp only [bumpUses] at ih <;>
        rw [ih]

lemma lookupLabel_bumpUses (st : LabelMap) (k k' : String × String) :
    lookupLabel (bumpUses st k') k =
      if k = k' then
        (lookupLabel st k).map (fun l => { l with uses := l.uses + 1 })
      else lookupLabel st k := by
  induction st with
  | nil => by_cases h : k = k' <;> simp [bumpUses, lookupLabel, h]
  | cons e es ih =>
      simp only [bumpUses, List.map_cons]
      simp only [bumpUses] at ih
      by_cases he : e.1 = k' <;> by_cases hk : k = k' <;>
        by_cases hek : e.1 = k <;>
        simp_all [lookupLabel_cons]

lemma lookupLabel_append (st1 st2 : LabelMap) (k : String × String) :
    lookupLabel (st1 ++ st2) k =
      (lookupLabel st1 k).or (lookupLabel st2 k) := by
  cases h : List.find? (fun e => e.1 = k) st1 with
  | none => simp [lookupLabel, List.find?_append, h]
  | some e => simp [lookupLabel, List.find?_append, h]

lemma lookupLabel_eq_none_iff (st : LabelMap) (k : String × String) :
    lookupLabel st k = none ↔ k ∉ st.map (fun e => e.1) := by
  rw [lookupLabel, Option.map_eq_none', List.find?_eq_none]
  constructor
  · intro h hk
    obtain ⟨e, he, hke⟩ := List.mem_map.mp hk
    have h2 := h e he
    simp only [decide_eq_true_eq] at h2
    exact h2 hke
  · intro h e he
    simp only [decide_eq_true_eq]
    intro hek
    exact h (List.mem_map.mpr ⟨e, he, hek⟩)

lemma lookup_of_mem_nodup (st : LabelMap)
    (hnd : (st.map (fun e => e.1)).Nodup) :
    ∀ e ∈ st, lookupLabel st e.1 = some e.2 := by
  induction st with
  | nil => intro e he; cases he
  | cons f st' ih =>
      intro e he
      rcases List.mem_cons.mp he with rfl | he'
      · simp [lookupLabel_cons]
      · have hne : f.1 ≠ e.1 := by
          intro hfe
          have : f.1 ∈ st'.map (fun e => e.1) :=
            hfe ▸ List.mem_map.mpr ⟨e, he', rfl⟩
          exact (List.nodup_cons.mp hnd).1 this
        rw [lookupLabel_cons, if_neg hne]
        exact ih (List.nodup_cons.mp hnd).2 e he'

lemma lookupLabel_nil (k : String × String) : lookupLabel [] k = none := rfl

lemma usesOf_processLabelRef (bid : String) (st : LabelMap)
    (lb : SrcLabel) (k : String × String) :
    usesOf (processLabelRef bid st lb).1 k =
      usesOf st k + (if resolvePair lb = k then 1 else 0) := by
  cases hl : lookupLabel st (resolvePair lb) with
  | some l =>
      by_cases hk : resolvePair lb = k
      · subst hk
        simp [processLabelRef, get_or_create_board_label, hl, usesOf,
          lookupLabel_bumpUses]
      · have hk2 : ¬ (k = resolvePair lb) := fun h2 => hk h2.symm
        simp [processLabelRef, get_or_create_board_label, hl, usesOf,
          lookupLabel_bumpUses, hk, hk2]
  | none =>
      by_cases hk : resolvePair lb = k
      · subst hk
        simp [processLabelRef, get_or_create_board_label, hl, usesOf,
          lookupLabel_bumpUses, lookupLabel_append, lookupLabel_cons]
      · have hk2 : ¬ (k = resolvePair lb) := fun h2 => hk h2.symm
        simp [processLabelRef, get_or_create_board_label, hl, usesOf,
          lookupLabel_bumpUses, lookupLabel_append, lookupLabel_cons, hk,
          hk2, lookupLabel_nil, Option.or_none]

lemma infoOf_processLabelRef (bid : String) (st : LabelMap)
    (lb : SrcLabel) (k : String × String) :
    infoOf (processLabelRef bid st lb).1 k =
      (infoOf st k).or
        (if resolvePair lb = k
         then some (gen_trello_id (labelSeed lb.id), k.1, k.2) else none) := by
  cases hl : lookupLabel st (resolvePair lb) with
  | some l =>
      by_cases hk : resolvePair lb = k
      · subst hk
        simp [processLabelRef, get_or_create_board_label, hl, infoOf,
          lookupLabel_bumpUses]
      · have hk2 : ¬ (k = resolvePair lb) := fun h2 => hk h2.symm
        simp [processLabelRef, get_or_create_board_label, hl, infoOf,
          lookupLabel_bumpUses, hk, hk2]
  | none =>
      by_cases hk : resolvePair lb = k
      · subst hk
        simp [processLabelRef, get_or_create_board_label, hl, infoOf,
          lookupLabel_bumpUses, lookupLabel_append, lookupLabel_cons]
      · have hk2 : ¬ (k = resolvePair lb) := fun h2 => hk h2.symm
        simp [processLabelRef, get_or_create_board_label, hl, infoOf,
          lookupLabel_bumpUses, lookupLabel_append, lookupLabel_cons, hk,
          hk2, lookupLabel_nil, Option.or_none]

lemma keys_processLabelRef (bid : String) (st : LabelMap) (lb : SrcLabel) :
    ((processLabelRef bid st lb).1).map (fun e => e.1) =
      if lookupLabel st (resolvePair lb) = none
      then st.map (fun e => e.1) ++ [resolvePair lb]
      else st.map (fun e => e.1) := by
  cases hl : lookupLabel st (resolvePair lb) with
  | some l =>
      simp [processLabelRef, get_or_create_board_label, hl, keys_bumpUses]
  | none =>
      simp [processLabelRef, get_or_create_board_label, hl, keys_bumpUses]

lemma labelFold_cons (bid : String) (st : LabelMap) (lb : SrcLabel)
    (rs : List SrcLabel) :
    labelFold bid st (lb :: rs) =
      labelFold bid (processLabelRef bid st lb).1 rs := rfl

lemma labelFold_append (bid : String) (st : LabelMap)
    (rs1 rs2 : List SrcLabel) :
    labelFold bid st (rs1 ++ rs2) =
      labelFold bid (labelFold bid st rs1) rs2 := by
  simp [labelFold, List.foldl_append]

lemma usesOf_labelFold (bid : String) (rs : List SrcLabel) :
    ∀ (st : LabelMap) (k : String × String),
      usesOf (labelFold bid st rs) k =
        usesOf st k +
          (rs.filter (fun lb => decide (resolvePair lb = k))).length := by
  induction rs with
  | nil => intro st k; simp [labelFold]
  | cons lb rs ih =>
      intro st k
      rw [labelFold_cons, ih, usesOf_processLabelRef]
      by_cases h : resolvePair lb = k
      · simp [List.filter_cons, h]
        omega
      · simp [List.filter_cons, h]

lemma infoOf_labelFold (bid : String) (rs : List SrcLabel) :
    ∀ (st : LabelMap) (k : String × String),
      infoOf (labelFold bid st rs) k =
        (infoOf st k).or
          ((rs.find? (fun lb => decide (resolvePair lb = k))).map
            (fun lb => (gen_trello_id (labelSeed lb.id), k.1, k.2))) := by
  induction rs with
  | nil => intro st k; simp [labelFold]
  | cons lb rs ih =>
      intro st k
      rw [labelFold_cons, ih, infoOf_processLabelRef, Option.or_assoc]
      by_cases h : resolvePair lb = k
      · rw [List.find?_cons_of_pos _ (by simp [h]), if_pos h]
        simp
      · rw [List.find?_cons_of_neg _ (by simp [h]), if_neg h]
        simp

lemma nodup_keys_labelFold (bid : String) (rs : List SrcLabel) :
    ∀ st : LabelMap, ((st.map (fun e => e.1)).Nodup) →
      (((labelFold bid st rs).map (fun e => e.1)).Nodup) := by
  induction rs with
  | nil => intro st h; exact h
  | cons lb rs ih =>
      intro st h
      rw [labelFold_cons]
      apply ih
      rw [keys_processLabelRef]
      by_cases hl : lookupLabel st (resolvePair lb) = none
      · rw [if_pos hl]
        have hnotin := (lookupLabel_eq_none_iff st (resolvePair lb)).mp hl
        simp [List.nodup_append, h, hnotin]
      · rw [if_neg hl]
        exact h

lemma processCardLabels_state (bid : String) (lbs : List SrcLabel) :
    ∀ st : LabelMap, (processCardLabels bid st lbs).1 = labelFold bid st lbs := by
  induction lbs with
  | nil => intro st; rfl
  | cons lb rest ih =>
      intro st
      show (processCardLabels bid (processLabelRef bid st lb).1 rest).1 = _
      rw [ih, labelFold_cons]

lemma processCard_state (bid lid : String) (lp : Int) (now : String)
    (st : LabelMap) (cnt ci : Nat) (c : SrcCard)
    (r : LabelMap × TargetCard × List TargetChecklist)
    (h : processCard bid lid lp now st cnt ci c = some r) :
    r.1 = labelFold bid st (cardRefs c) := by
  obtain ⟨v, chks, hv, hch, rfl⟩ := (processCard_eq_some_iff bid lid lp now
    st cnt ci c r).mp h
  show (processCardLabels bid st (fldList c.cards_labels)).1 = _
  rw [processCardLabels_state]
  rfl

lemma processCards_state (bid lid : String) (lp : Int) (now : String)
    (cs : List SrcCard) :
    ∀ (st : LabelMap) (cnt ci : Nat)
      (r : LabelMap × Nat × List TargetCard × List TargetChecklist),
      processCards bid lid lp now st cnt ci cs = some r →
      r.1 = labelFold bid st ((cs.map cardRefs).flatten) := by
  induction cs with
  | nil =>
      intro st cnt ci r h
      simp only [processCards, Option.some.injEq] at h
      rw [← h]
      rfl
  | cons c rest ih =>
      intro st cnt ci r h
      simp only [processCards] at h
      cases hp : processCard bid lid lp now st cnt ci c with
      | none => rw [hp] at h; simp at h
      | some rc =>
          rw [hp] at h
          simp only [Option.some_bind] at h
          cases hr : processCards bid lid lp now rc.1 (cnt + 1) (ci + 1)
              rest with
          | none => rw [hr] at h; simp at h
          | some r2 =>
              rw [hr] at h
              simp only [Option.some_bind, Option.some.injEq] at h
              rw [← h]
              show r2.1 = _
              rw [ih rc.1 (cnt + 1) (ci + 1) r2 hr,
                processCard_state bid lid lp now st cnt ci c rc hp,
                ← labelFold_append]
              rfl

lemma processLists_state (bid now : String) (ls : List SrcList) :
    ∀ (st : LabelMap) (cnt li : Nat)
      (r : LabelMap × Nat × List TargetList × List TargetCard ×
           List TargetChecklist),
      processLists bid now st cnt li ls = some r →
      r.1 = labelFold bid st (allRefs ls) := by
  induction ls with
  | nil =>
      intro st cnt li r h
      simp only [processLists, Option.some.injEq] at h
      rw [← h]
      rfl
  | cons l rest ih =>
      intro st cnt li r h
      cases hv : l.id with
      | none => simp [processLists, hv] at h
      | some v =>
          simp only [processLists, hv] at h
          cases hp : processCards bid (gen_trello_id v) (16384 * (li : Int))
              now st cnt 1 (fldList l.cards) with
          | none => rw [hp] at h; simp at h
          | some rc =>
              rw [hp] at h
              simp only [Option.some_bind] at h
              cases hr : processLists bid now rc.1 rc.2.1 (li + 1) rest with
              | none => rw [hr] at h; simp at h
              | some r2 =>
                  rw [hr] at h
                  simp only [Option.some_bind, Option.some.injEq] at h
                  rw [← h]
                  show r2.1 = _
                  rw [ih rc.1 rc.2.1 (li + 1) r2 hr,
                    processCards_state bid (gen_trello_id v)
                      (16384 * (li : Int)) now (fldList l.cards) st cnt 1 rc
                      hp,
                    ← labelFold_append]
                  rfl

lemma final_entry_spec (bid : String) (rs : List SrcLabel) :
    ∀ e ∈ labelFold bid [] rs,
      (e.2.color, e.2.name) = e.1 ∧
      (∃ lb, rs.find? (fun x => decide (resolvePair x = e.1)) = some lb ∧
        e.2.id = gen_trello_id (labelSeed lb.id)) ∧
      e.2.uses = (rs.filter (fun x => decide (resolvePair x = e.1))).length := by
  intro e he
  have hnd : ((labelFold bid [] rs).map (fun e => e.1)).Nodup :=
    nodup_keys_labelFold bid rs [] (by simp)
  have hlk := lookup_of_mem_nodup _ hnd e he
  have hinfo := infoOf_labelFold bid rs [] e.1
  have huses := usesOf_labelFold bid rs [] e.1
  rw [show infoOf ([] : LabelMap) e.1 = none from rfl, Option.none_or]
    at hinfo
  rw [show usesOf ([] : LabelMap) e.1 = 0 from rfl, Nat.zero_add] at huses
  have hinfo2 : infoOf (labelFold bid [] rs) e.1 =
      some (e.2.id, e.2.color, e.2.name) := by
    rw [infoOf, hlk]
    rfl
  rw [hinfo2] at hinfo
  cases hf : rs.find? (fun x => decide (resolvePair x = e.1)) with
  | none => rw [hf] at hinfo; simp at hinfo
  | some lb =>
      rw [hf] at hinfo
      simp only [Option.map_some, Option.map_some', Option.some.injEq]
        at hinfo
      have hid : e.2.id = gen_trello_id (labelSeed lb.id) :=
        congrArg (fun x => x.1) hinfo
      have hcol : e.2.color = e.1.1 := congrArg (fun x => x.2.1) hinfo
      have hname : e.2.name = e.1.2 := congrArg (fun x => x.2.2) hinfo
      refine ⟨?_, ⟨lb, rfl, hid⟩, ?_⟩
      · rw [hcol, hname]
      · have h3 : usesOf (labelFold bid [] rs) e.1 = e.2.uses := by
          rw [usesOf, hlk]
        rw [← h3, huses]

lemma mem_insertByPos (a x : SrcList) (l : List SrcList) :
    a ∈ insertByPos x l ↔ a = x ∨ a ∈ l := by
  rw [(insertByPos_perm x l).mem_iff]
  simp

lemma pairwise_le_insertByPos (x : SrcList) (l : List SrcList)
    (h : l.Pairwise (fun a b => sortKey a ≤ sortKey b)) :
    (insertByPos x l).Pairwise (fun a b => sortKey a ≤ sortKey b) := by
  induction l with
  | nil => simp [insertByPos]
  | cons y ys ih =>
      rcases List.pairwise_cons.mp h with ⟨hy, hys⟩
      by_cases hc : sortKey y ≤ sortKey x
      · rw [insertByPos, if_pos hc]
        refine List.pairwise_cons.mpr ⟨?_, ih hys⟩
        intro b hb
        rcases (mem_insertByPos b x ys).mp hb with rfl | hb2
        · exact hc
        · exact hy b hb2
      · rw [insertByPos, if_neg hc]
        have hlt : sortKey x < sortKey y := lt_of_not_ge hc
        refine List.pairwise_cons.mpr ⟨?_, h⟩
        intro b hb
        rcases List.mem_cons.mp hb with rfl | hb2
        · exact le_of_lt hlt
        · exact le_trans (le_of_lt hlt) (hy b hb2)

lemma sortLists_pairwise (xs : List SrcList) :
    (sortLists xs).Pairwise (fun a b => sortKey a ≤ sortKey b) := by
  suffices h : ∀ acc : List SrcList,
      acc.Pairwise (fun a b => sortKey a ≤ sortKey b) →
      (xs.foldl (fun a x => insertByPos x a) acc).Pairwise
        (fun a b => sortKey a ≤ sortKey b) from h [] (by simp)
  induction xs with
  | nil => intro acc h1; exact h1
  | cons x rest ih =>
      intro acc h1
      exact ih (insertByPos x acc) (pairwise_le_insertByPos x acc h1)

lemma insertByPosI_map_snd (x : Nat × SrcList) (l : List (Nat × SrcList)) :
    (insertByPosI x l).map Prod.snd = insertByPos x.2 (l.map Prod.snd) := by
  induction l with
  | nil => rfl
  | cons y ys ih =>
      by_cases h : sortKey y.2 ≤ sortKey x.2
      · rw [insertByPosI, if_pos h, List.map_cons, List.map_cons,
          insertByPos, if_pos h, ih]
      · rw [insertByPosI, if_neg h, List.map_cons, List.map_cons,
          insertByPos, if_neg h]

lemma enumFrom_map_snd {α : Type} (xs : List α) :
    ∀ i, (enumFrom i xs).map Prod.snd = xs := by
  induction xs with
  | nil => intro i; rfl
  | cons x rest ih => intro i; simp [enumFrom, ih]

lemma sortListsI_map_snd (xs : List SrcList) :
    (sortListsI xs).map Prod.snd = sortLists xs := by
  suffices h : ∀ (ixs : List (Nat × SrcList)) (acc : List (Nat × SrcList)),
      (ixs.foldl (fun a x => insertByPosI x a) acc).map Prod.snd =
        (ixs.map Prod.snd).foldl (fun a x => insertByPos x a)
          (acc.map Prod.snd) by
    rw [sortListsI, sortLists, h (enumFrom 0 xs) [], enumFrom_map_snd]
    rfl
  intro ixs
  induction ixs with
  | nil => intro acc; rfl
  | cons x rest ih =>
      intro acc
      show (rest.foldl (fun a x => insertByPosI x a)
        (insertByPosI x acc)).map Prod.snd = _
      rw [ih (insertByPosI x acc), insertByPosI_map_snd]
      rfl

lemma mem_enumFrom {α : Type} (xs : List α) :
    ∀ (i : Nat) (q : Nat × α), q ∈ enumFrom i xs → i ≤ q.1 := by
  induction xs with
  | nil => intro i q hq; cases hq
  | cons x rest ih =>
      intro i q hq
      rcases List.mem_cons.mp hq with rfl | hq2
      · exact le_refl i
      · exact le_trans (Nat.le_succ i) (ih (i + 1) q hq2)

lemma enumFrom_pairwise {α : Type} (xs : List α) :
    ∀ i, (enumFrom i xs).Pairwise (fun p q => p.1 < q.1) := by
  induction xs with
  | nil => intro i; exact List.Pairwise.nil
  | cons x rest ih =>
      intro i
      refine List.pairwise_cons.mpr ⟨?_, ih (i + 1)⟩
      intro q hq
      exact lt_of_lt_of_le (Nat.lt_succ_self i) (mem_enumFrom rest (i + 1) q hq)

lemma insertByPosI_perm (x : Nat × SrcList) (l : List (Nat × SrcList)) :
    (insertByPosI x l).Perm (x :: l) := by
  induction l with
  | nil => exact List.Perm.refl _
  | cons y ys ih =>
      by_cases h : sortKey y.2 ≤ sortKey x.2
      · simp only [insertByPosI, if_pos h]
        exact (ih.cons y).trans (List.Perm.swap x y ys)
      · simp only [insertByPosI, if_neg h]
        exact List.Perm.refl _

lemma pairwise_lex_insertByPosI (x : Nat × SrcList)
    (l : List (Nat × SrcList)) (h : l.Pairwise lexLt)
    (hidx : ∀ p ∈ l, p.1 < x.1) :
    (insertByPosI x l).Pairwise lexLt := by
  induction l with
  | nil => simp [insertByPosI, lexLt]
  | cons y ys ih =>
      rcases List.pairwise_cons.mp h with ⟨hy, hys⟩
      by_cases hc : sortKey y.2 ≤ sortKey x.2
      · rw [insertByPosI, if_pos hc]
        refine List.pairwise_cons.mpr
          ⟨?_, ih hys (fun p hp => hidx p (List.mem_cons_of_mem y hp))⟩
        intro b hb
        rcases List.mem_cons.mp ((insertByPosI_perm x ys).mem_iff.mp hb)
          with rfl | hb2
        · rcases lt_or_eq_of_le hc with hlt | heq
          · exact Or.inl hlt
          · exact Or.inr ⟨heq, hidx y (List.mem_cons_self y ys)⟩
        · exact hy b hb2
      · rw [insertByPosI, if_neg hc]
        have hlt : sortKey x.2 < sortKey y.2 := lt_of_not_ge hc
        refine List.pairwise_cons.mpr ⟨?_, h⟩
        intro b hb
        rcases List.mem_cons.mp hb with rfl | hb2
        · exact Or.inl hlt
        · rcases hy b hb2 with hb3 | ⟨hb3, _⟩
          · exact Or.inl (lt_trans hlt hb3)
          · exact Or.inl (hb3 ▸ hlt)

lemma sortListsI_pairwise (xs : List SrcList) :
    (sortListsI xs).Pairwise lexLt := by
  suffices h : ∀ (ixs : List (Nat × SrcList)) (acc : List (Nat × SrcList)),
      acc.Pairwise lexLt → (∀ p ∈ acc, ∀ q ∈ ixs, p.1 < q.1) →
      ixs.Pairwise (fun p q => p.1 < q.1) →
      (ixs.foldl (fun a x => insertByPosI x a) acc).Pairwise lexLt by
    exact h (enumFrom 0 xs) [] (by simp) (by simp) (enumFrom_pairwise xs 0)
  intro ixs
  induction ixs with
  | nil => intro acc h1 _ _; exact h1
  | cons x rest ih =>
      intro acc h1 h2 h3
      rcases List.pairwise_cons.mp h3 with ⟨hx, hrest⟩
      apply ih
      · exact pairwise_lex_insertByPosI x acc h1
          (fun p hp => h2 p hp x (List.mem_cons_self x rest))
      · intro p hp q hq
        rcases List.mem_cons.mp ((insertByPosI_perm x acc).mem_iff.mp hp)
          with rfl | hp2
        · exact hx q hq
        · exact h2 p hp2 q (List.mem_cons_of_mem x hq)
      · exact hrest

lemma posSeq_pairwise (base : Int) (n : Nat) :
    (posSeq base n).Pairwise (fun a b => a < b) := by
  unfold posSeq
  rw [List.pairwise_map]
  refine (List.pairwise_lt_range' 1 n 1).imp ?_
  intro a b hab
  omega

lemma listPos_pairwise (li n : Nat) :
    ((List.range' li n).map (fun (k : Nat) => 16384 * (k : Int))).Pairwise
      (fun a b => a < b) := by
  rw [List.pairwise_map]
  refine (List.pairwise_lt_range' li n 1).imp ?_
  intro a b hab
  omega

lemma processCards_pos (bid lid : String) (lp : Int) (now : String)
    (cs : List SrcCard) :
    ∀ (st : LabelMap) (cnt ci : Nat)
      (r : LabelMap × Nat × List TargetCard × List TargetChecklist),
      processCards bid lid lp now st cnt ci cs = some r →
      r.2.2.1.map (fun c => c.pos) =
        (List.range' ci cs.length).map
          (fun (j : Nat) => lp + (j : Int) * 16384) ∧
      List.Forall₂ (fun (sc : SrcCard) (tc : TargetCard) =>
        ∃ v, sc.id = some v ∧ tc.id = gen_trello_id v) cs r.2.2.1 := by
  induction cs with
  | nil =>
      intro st cnt ci r h
      simp only [processCards, Option.some.injEq] at h
      rw [← h]
      exact ⟨rfl, List.Forall₂.nil⟩
  | cons c rest ih =>
      intro st cnt ci r h
      simp only [processCards] at h
      cases hp : processCard bid lid lp now st cnt ci c with
      | none => rw [hp] at h; simp at h
      | some rc =>
          rw [hp] at h
          simp only [Option.some_bind] at h
          cases hr : processCards bid lid lp now rc.1 (cnt + 1) (ci + 1)
              rest with
          | none => rw [hr] at h; simp at h
          | some r2 =>
              rw [hr] at h
              simp only [Option.some_bind, Option.some.injEq] at h
              obtain ⟨v, chks, hv, hch, hrc⟩ :=
                (processCard_eq_some_iff bid lid lp now st cnt ci c rc).mp hp
              obtain ⟨hmap, hfa⟩ := ih rc.1 (cnt + 1) (ci + 1) r2 hr
              rw [← h]
              subst hrc
              constructor
              · show (mkCardObj bid lid lp now st cnt ci c v chks ::
                  r2.2.2.1).map (fun c => c.pos) = _
                rw [List.map_cons, hmap, List.length_cons, List.range'_succ,
                  List.map_cons]
                rfl
              · exact List.Forall₂.cons ⟨v, hv, rfl⟩ hfa

lemma processLists_blocks (bid now : String) (ls : List SrcList) :
    ∀ (st : LabelMap) (cnt li : Nat)
      (r : LabelMap × Nat × List TargetList × List TargetCard ×
           List TargetChecklist),
      processLists bid now st cnt li ls = some r →
      r.2.2.1.map (fun t => t.pos) =
        (List.range' li ls.length).map
          (fun (k : Nat) => 16384 * (k : Int)) ∧
      List.Forall₂ (fun (sl : SrcList) (tl : TargetList) =>
        ∃ v, sl.id = some v ∧ tl.id = gen_trello_id v) ls r.2.2.1 ∧
      ∃ blocks : List (List TargetCard),
        r.2.2.2.1 = blocks.flatten ∧
        List.Forall₂ (fun (sl : SrcList) (blk : List TargetCard) =>
          List.Forall₂ (fun (sc : SrcCard) (tc : TargetCard) =>
            ∃ v, sc.id = some v ∧ tc.id = gen_trello_id v)
            (fldList sl.cards) blk) ls blocks ∧
        List.Forall₂ (fun (k : Nat) (blk : List TargetCard) =>
          blk.map (fun c => c.pos) = posSeq (16384 * (k : Int)) blk.length)
          (List.range' li ls.length) blocks := by
  induction ls with
  | nil =>
      intro st cnt li r h
      simp only [processLists, Option.some.injEq] at h
      rw [← h]
      exact ⟨rfl, List.Forall₂.nil, [], rfl, List.Forall₂.nil,
        List.Forall₂.nil⟩
  | cons l rest ih =>
      intro st cnt li r h
      cases hv : l.id with
      | none => simp [processLists, hv] at h
      | some v =>
          simp only [processLists, hv] at h
          cases hp : processCards bid (gen_trello_id v) (16384 * (li : Int))
              now st cnt 1 (fldList l.cards) with
          | none => rw [hp] at h; simp at h
          | some rc =>
              rw [hp] at h
              simp only [Option.some_bind] at h
              cases hr : processLists bid now rc.1 rc.2.1 (li + 1) rest with
              | none => rw [hr] at h; simp at h
              | some r2 =>
                  rw [hr] at h
                  simp only [Option.some_bind, Option.some.injEq] at h
                  obtain ⟨hmapc, hfac⟩ := processCards_pos bid
                    (gen_trello_id v) (16384 * (li : Int)) now
                    (fldList l.cards) st cnt 1 rc hp
                  obtain ⟨hmap2, hfa2, blocks', hflat, hfab, hfap⟩ :=
                    ih rc.1 rc.2.1 (li + 1) r2 hr
                  rw [← h]
                  refine ⟨?_, ?_, rc.2.2.1 :: blocks', ?_, ?_, ?_⟩
                  · show (({ id := gen_trello_id v,
                               name := fldOrEmpty l.name,
                               closed := fldEqOne l.is_archived,
                               idBoard := bid,
                               pos := 16384 * (li : Int),
                               idOrganization := id_organization } :
                             TargetList) ::
                            r2.2.2.1).map (fun t => t.pos) = _
                    rw [List.map_cons, hmap2, List.length_cons,
                      List.range'_succ, List.map_cons]
                  · exact List.Forall₂.cons ⟨v, hv, rfl⟩ hfa2
                  · show rc.2.2.1 ++ r2.2.2.2.1 = _
                    rw [hflat]
                    rfl
                  · exact List.Forall₂.cons hfac hfab
                  · show List.Forall₂ _
                      (List.range' li (l :: rest).length) _
                    rw [List.length_cons, List.range'_succ]
                    refine List.Forall₂.cons ?_ hfap
                    rw [hmapc, ← List.Forall₂.length_eq hfac]
                    rfl

/-! ## Claims -/

/-- RFC 1321 test vector: the digest of the empty message. -/
lemma md5Hex_vector_empty :
    md5Hex "" = "d41d8cd98f00b204e9800998ecf8427e" := by decide

/-- RFC 1321 test vector for the message "abc". -/
lemma md5Hex_vector_abc :
    md5Hex "abc" = "900150983cd24fb0d6963f7d28e17f72" := by decide

/-- Digest of the fallback board seed rendered by `str`. -/
lemma md5Hex_vector_12345 :
    md5Hex "12345" = "827ccb0eea8a706c4c34a16891f84e7b" := by decide

/-- C9: for a card's due date, a non-empty string not ending in `"Z"`
gains exactly one trailing `"Z"`; a string ending in `"Z"` is unchanged;
a null/absent due date stays `None` and an empty one stays empty. -/
theorem C9_due_normalization :
    (∀ s : String, s ≠ "" → endsWithZ s = false →
        normalize_due (some s) = some (s ++ "Z")) ∧
    (∀ s : String, endsWithZ s = true → normalize_due (some s) = some s) ∧
    normalize_due none = none ∧
    normalize_due (some "") = some "" := by
  refine ⟨?_, ?_, rfl, by simp [normalize_due]⟩
  · intro s h1 h2
    simp [normalize_due, h1, h2]
  · intro s h
    simp [normalize_due, h]

/-- Witness for C9 at concrete due-date strings. -/
theorem C9_witness :
    ("2024-05-06T07:08:09" ≠ "" ∧ endsWithZ "2024-05-06T07:08:09" = false ∧
      normalize_due (some "2024-05-06T07:08:09") =
        some ("2024-05-06T07:08:09" ++ "Z")) ∧
    (endsWithZ "2024Z" = true ∧
      normalize_due (some "2024Z") = some "2024Z") :=
  ⟨⟨by decide, by decide,
     C9_due_normalization.1 "2024-05-06T07:08:09" (by decide) (by decide)⟩,
   ⟨by decide, C9_due_normalization.2.1 "2024Z" (by decide)⟩⟩

/-- C5 as stated is false: with an unmapped color `"#000000"` the output
label has color `"green"` but name `"正常"`, not `"normal/OK"`. -/
theorem C5_counterexample :
    (fullLabels (convert cexC5 "T")).map (fun l => (l.color, l.name)) =
      [("green", "正常")] ∧ "正常" ≠ "normal/OK" := by
  exact ⟨by decide, by decide⟩

/-- C5 (amended): a source label whose color string has no palette entry
resolves to color `"green"` and name `"正常"` (the script's hard-coded
fallback; no error is raised). -/
theorem C5_unknown_color_fallback (lb : SrcLabel) (hex : String)
    (hc : lb.color = some (some hex)) (hl : lookupColor hex = none) :
    resolvePair lb = ("green", "正常") := by
  simp [resolvePair, colorLookup, hc, hl]

/-- Witness for C5 at the color `"#000000"`. -/
theorem C5_witness :
    lookupColor "#000000" = none ∧
    resolvePair ⟨some (.int 5), some (some "#000000")⟩ = ("green", "正常") :=
  ⟨by decide,
   C5_unknown_color_fallback ⟨some (.int 5), some (some "#000000")⟩
     "#000000" rfl (by decide)⟩

/-- C4 as stated is false: all lists and cards carry ids, yet the
conversion still fails because a checklist record lacks its id. -/
theorem C4_counterexample :
    convert cexC4 "T" = none ∧
    (∀ l ∈ fldList cexC4, l.id ≠ none) ∧
    (∀ l ∈ fldList cexC4, ∀ c ∈ fldList l.cards, c.id ≠ none) := by
  exact ⟨by decide, by decide, by decide⟩

/-- C4 (amended): the conversion fails if and only if some traversed list,
card, checklist or check-item record lacks its identifier key; all other
absent fields are tolerated. -/
theorem C4_fail_iff (input : Fld (List SrcList)) (now : String) :
    convert input now = none ↔ anyMissingId (fldList input) := by
  cases h : fldList input with
  | nil =>
      rw [convert_nil input now h]
      simp [anyMissingId]
  | cons first rest =>
      rw [convert_cons input now first rest h]
      unfold anyMissingId
      constructor
      · intro hc
        have hp := Option.map_eq_none'.mp hc
        obtain ⟨x, hx, hxe⟩ :=
          (processLists_none_iff (gen_trello_id
            (first.board_id.getD (.int 12345))) now [] 1 1
            (sortLists (first :: rest))).mp hp
        exact ⟨x, (sortLists_perm (first :: rest)).mem_iff.mp hx, hxe⟩
      · rintro ⟨x, hx, hxe⟩
        have hp := (processLists_none_iff (gen_trello_id
            (first.board_id.getD (.int 12345))) now [] 1 1
            (sortLists (first :: rest))).mpr
          ⟨x, (sortLists_perm (first :: rest)).mem_iff.mpr hx, hxe⟩
        rw [hp]
        rfl

/-- C3 as stated is false: an absent checklist name becomes `"Checklist"`
(not the empty string) and a null check-item name stays null (not the
empty string); no error is raised. -/
theorem C3_counterexample :
    (fullChecklists (convert cexC3 "T")).map
        (fun ch => (ch.name, ch.checkItems.map (fun it => it.name))) =
      [("Checklist", [(none : Option String)])] ∧
    ("Checklist" : String) ≠ "" ∧ (none : Option String) ≠ some "" := by
  exact ⟨by decide, by decide, by decide⟩

/-- C3 (amended): missing or null optional names and descriptions never
abort the conversion; card/list names and descriptions resolve to `""`;
a checklist name that is absent, null or empty resolves to `"Checklist"`;
a check-item name resolves to `""` when the key is absent but stays null
when the value is null. -/
theorem C3_missing_name_defaults :
    (∀ f : Fld String, (f = none ∨ f = some none ∨ f = some (some "")) →
        fldOrEmpty f = "") ∧
    (∀ s : String, s ≠ "" → fldOrEmpty (some (some s)) = s) ∧
    (∀ (ch_id : String) (cii : Nat) (it : SrcCheckItem) (v : PyVal),
        it.id = some v →
        ∃ t, mkCheckItem ch_id cii it = some t ∧
          (it.name = none → t.name = some "") ∧
          (it.name = some none → t.name = none) ∧
          (∀ s, it.name = some (some s) → t.name = some s)) ∧
    (∀ (bid cid : String) (chi : Nat) (ch : SrcChecklist) (v : PyVal),
        ch.id = some v →
        (∀ it ∈ fldList ch.checklists_items, it.id ≠ none) →
        ∃ t, mkChecklist bid cid chi ch = some t ∧
          ((ch.name = none ∨ ch.name = some none ∨ ch.name = some (some ""))
            → t.name = "Checklist") ∧
          (∀ s, s ≠ "" → ch.name = some (some s) → t.name = s)) := by
  refine ⟨?_, ?_, ?_, ?_⟩
  · intro f h
    rcases h with rfl | rfl | rfl <;> simp [fldOrEmpty]
  · intro s hs
    simp [fldOrEmpty, hs]
  · intro ch_id cii it v hv
    cases hm : mkCheckItem ch_id cii it with
    | none => simp [mkCheckItem, hv] at hm
    | some t =>
        have hn : t.name = fldItemName it.name := by
          simp only [mkCheckItem, hv, Option.some.injEq] at hm
          rw [← hm]
        refine ⟨t, rfl, ?_, ?_, ?_⟩
        · intro h
          rw [hn, h]
          rfl
        · intro h
          rw [hn, h]
          rfl
        · intro s h
          rw [hn, h]
          rfl
  · intro bid cid chi ch v hv hitems
    cases hm : mkChecklist bid cid chi ch with
    | none =>
        rcases (mkChecklist_none_iff bid cid chi ch).mp hm with h | ⟨x, hx, hxe⟩
        · rw [hv] at h
          cases h
        · exact absurd hxe (hitems x hx)
    | some t =>
        have hn : t.name = fldChecklistName ch.name := by
          simp only [mkChecklist, hv] at hm
          cases hr : processCheckItems (gen_trello_id v) 1
              (fldList ch.checklists_items) with
          | none =>
              rw [hr] at hm
              simp at hm
          | some items =>
              rw [hr] at hm
              simp only [Option.some.injEq] at hm
              rw [← hm]
        refine ⟨t, rfl, ?_, ?_⟩
        · intro h
          rw [hn]
          rcases h with h | h | h <;> rw [h] <;> simp [fldChecklistName]
        · intro s hs h
          rw [hn, h]
          simp [fldChecklistName, hs]

/-- Witness for C3 at a concrete checklist and check item. -/
theorem C3_witness :
    (∃ t, mkCheckItem "C" 1 ⟨some (.int 4), some none, none⟩ = some t ∧
      ((⟨some (.int 4), some none, none⟩ : SrcCheckItem).name = none →
        t.name = some "") ∧
      ((⟨some (.int 4), some none, none⟩ : SrcCheckItem).name = some none →
        t.name = none) ∧
      (∀ s, (⟨some (.int 4), some none, none⟩ : SrcCheckItem).name =
        some (some s) → t.name = some s)) ∧
    (∃ t, mkChecklist "B" "CA" 1
        ⟨some (.int 3), none, some (some [⟨some (.int 4), some none, none⟩])⟩
          = some t ∧
      (((⟨some (.int 3), none, some (some [⟨some (.int 4), some none,
          none⟩])⟩ : SrcChecklist).name = none ∨
        (⟨some (.int 3), none, some (some [⟨some (.int 4), some none,
          none⟩])⟩ : SrcChecklist).name = some none ∨
        (⟨some (.int 3), none, some (some [⟨some (.int 4), some none,
          none⟩])⟩ : SrcChecklist).name = some (some "")) →
        t.name = "Checklist") ∧
      (∀ s, s ≠ "" → (⟨some (.int 3), none, some (some [⟨some (.int 4),
        some none, none⟩])⟩ : SrcChecklist).name = some (some s) →
        t.name = s)) :=
  ⟨C3_missing_name_defaults.2.2.1 "C" 1 ⟨some (.int 4), some none, none⟩
     (.int 4) rfl,
   C3_missing_name_defaults.2.2.2 "B" "CA" 1
     ⟨some (.int 3), none, some (some [⟨some (.int 4), some none, none⟩])⟩
     (.int 3) rfl (by decide)⟩

/-- C2 as stated is false: even after masking the two board-level
timestamp fields, two runs at different wall-clock times differ, because
each card also embeds a `dateLastActivity` stamp. -/
theorem C2_counterexample :
    (convert cexC2 "T1").map maskBoardTimes ≠
      (convert cexC2 "T2").map maskBoardTimes := by
  intro h
  have h1 : ((convert cexC2 "T1").map maskBoardTimes).map
      (fun r => (fullCards (some r)).map (fun c => c.dateLastActivity)) =
        some ["T1"] := by decide
  have h2 : ((convert cexC2 "T2").map maskBoardTimes).map
      (fun r => (fullCards (some r)).map (fun c => c.dateLastActivity)) =
        some ["T2"] := by decide
  rw [h] at h1
  rw [h1] at h2
  simp at h2

/-- C8: the `idShort` values of the emitted cards form the contiguous
sequence 1, 2, … across the whole board, in traversal order, with the
counter never reset between lists. -/
theorem C8_idShort_sequence (input : Fld (List SrcList)) (now : String) :
    (fullCards (convert input now)).map (fun c => c.idShort) =
      List.range' 1 (fullCards (convert input now)).length := by
  cases h : fldList input with
  | nil => rw [convert_nil input now h]; rfl
  | cons first rest =>
      rw [convert_cons input now first rest h]
      cases hp : processLists (gen_trello_id (first.board_id.getD
          (.int 12345))) now [] 1 1 (sortLists (first :: rest)) with
      | none => rfl
      | some r =>
          have hr := (processLists_idShort (gen_trello_id
            (first.board_id.getD (.int 12345))) now
            (sortLists (first :: rest)) [] 1 1 r hp).1
          show r.2.2.2.1.map (fun c => c.idShort) =
            List.range' 1 r.2.2.2.1.length
          exact hr

/-- C2 (amended): for identical inputs, two runs differ only in the two
board-level timestamps and each card's `dateLastActivity`: masking those
three places makes the outputs of any two runs identical. -/
theorem C2_masked_determinism (input : Fld (List SrcList)) (n1 n2 : String) :
    (convert input n1).map maskAllTimes = (convert input n2).map maskAllTimes := by
  cases h : fldList input with
  | nil => rw [convert_nil input n1 h, convert_nil input n2 h]
  | cons first rest =>
      rw [convert_cons input n1 first rest h,
        convert_cons input n2 first rest h]
      have hm := processLists_mask (gen_trello_id (first.board_id.getD
        (.int 12345))) n1 n2 (sortLists (first :: rest)) [] 1 1
      cases hp1 : processLists (gen_trello_id (first.board_id.getD
          (.int 12345))) n1 [] 1 1 (sortLists (first :: rest)) with
      | none =>
          rw [hp1] at hm
          cases hp2 : processLists (gen_trello_id (first.board_id.getD
              (.int 12345))) n2 [] 1 1 (sortLists (first :: rest)) with
          | none => rfl
          | some r2 => rw [hp2] at hm; simp at hm
      | some r1 =>
          rw [hp1] at hm
          cases hp2 : processLists (gen_trello_id (first.board_id.getD
              (.int 12345))) n2 [] 1 1 (sortLists (first :: rest)) with
          | none => rw [hp2] at hm; simp at hm
          | some r2 =>
              rw [hp2] at hm
              simp only [Option.map_some, Option.map_some',
                Option.some.injEq] at hm
              have e1 : r1.1 = r2.1 := congrArg (fun x => x.1) hm
              have e3 : r1.2.2.1 = r2.2.2.1 :=
                congrArg (fun x => x.2.2.1) hm
              have e4 : r1.2.2.2.1.map maskCardTime =
                  r2.2.2.2.1.map maskCardTime :=
                congrArg (fun x => x.2.2.2.1) hm
              have e5 : r1.2.2.2.2 = r2.2.2.2.2 :=
                congrArg (fun x => x.2.2.2.2) hm
              simp only [Option.map_some, Option.map_some',
                Option.some.injEq, maskAllTimes, assemble]
              rw [e1, e3, e4, e5]

/-- C1 as stated is false: a card carrying two source labels that map to
the same canonical key bumps that label's `uses` by 2, not 1. -/
theorem C1_counterexample :
    (fullLabels (convert cexC1 "T")).map (fun l => (l.color, l.name, l.uses))
      = [("green", "正常", 2)] ∧ (2 : Nat) ≠ 1 := by
  exact ⟨by decide, by decide⟩

/-- C1 (amended): `uses` increments once per *reference attempt*: after a
card's label list is processed, each canonical key's `uses` is higher by
exactly the number of that card's references resolving to the key, and in
the final output each label's `uses` equals the total number of reference
attempts across the board that resolve to its (color, name) key. -/
theorem C1_uses_per_reference :
    (∀ (bid : String) (st : LabelMap) (lbs : List SrcLabel)
        (k : String × String),
        usesOf (processCardLabels bid st lbs).1 k =
          usesOf st k +
            (lbs.filter (fun lb => decide (resolvePair lb = k))).length) ∧
    (∀ (input : Fld (List SrcList)) (now : String),
        ∀ l ∈ fullLabels (convert input now),
          l.uses = ((allRefs (sortLists (fldList input))).filter
            (fun x => decide (resolvePair x = (l.color, l.name)))).length) := by
  constructor
  · intro bid st lbs k
    rw [processCardLabels_state]
    exact usesOf_labelFold bid lbs st k
  · intro input now l hl
    cases hd : fldList input with
    | nil =>
        rw [convert_nil input now hd] at hl
        exact absurd hl (List.not_mem_nil l)
    | cons first rest =>
        cases hp : processLists (gen_trello_id (first.board_id.getD
            (.int 12345))) now [] 1 1 (sortLists (first :: rest)) with
        | none =>
            rw [convert_cons input now first rest hd, hp] at hl
            exact absurd hl (List.not_mem_nil l)
        | some r =>
            have hlabels : fullLabels (convert input now) =
                r.1.map (fun e => e.2) := by
              rw [convert_cons input now first rest hd, hp]
              rfl
            rw [hlabels] at hl
            obtain ⟨e, he, rfl⟩ := List.mem_map.mp hl
            rw [processLists_state (gen_trello_id (first.board_id.getD
              (.int 12345))) now (sortLists (first :: rest)) [] 1 1 r hp]
              at he
            obtain ⟨hkey, _, huse⟩ := final_entry_spec (gen_trello_id
              (first.board_id.getD (.int 12345)))
              (allRefs (sortLists (first :: rest))) e he
            rw [hkey]
            exact huse

/-- Witness for C1 at a concrete input: the board of `cexC1` has one
canonical label with `uses = 2`, matching its two reference attempts. -/
theorem C1_witness :
    ({ id := gen_trello_id (.int 3), idBoard := gen_trello_id (.int 12345),
       name := "正常", color := "green", uses := 2 } : TargetLabel) ∈
      fullLabels (convert cexC1 "T") ∧
    (2 : Nat) = ((allRefs (sortLists (fldList cexC1))).filter
      (fun x => decide (resolvePair x = ("green", "正常")))).length :=
  ⟨by
     rw [show fullLabels (convert cexC1 "T") =
       [{ id := gen_trello_id (.int 3),
          idBoard := gen_trello_id (.int 12345),
          name := "正常", color := "green", uses := 2 }] from rfl]
     exact List.mem_singleton_self _,
   C1_uses_per_reference.2 cexC1 "T"
     { id := gen_trello_id (.int 3), idBoard := gen_trello_id (.int 12345),
       name := "正常", color := "green", uses := 2 } (by decide)⟩

/-- C6: the board labels collection has exactly one entry per distinct
(color, name) key resolved from the label references of the traversed
cards — no duplicates, none missing — and each entry's id is synthesized
from the first source label (in traversal order) that resolved to that
key. -/
theorem C6_label_dedup (input : Fld (List SrcList)) (now : String)
    (h : isFull (convert input now) = true) :
    ((fullLabels (convert input now)).map
      (fun l => (l.color, l.name))).Nodup ∧
    (∀ k : String × String,
      (k ∈ (fullLabels (convert input now)).map (fun l => (l.color, l.name)))
        ↔ ∃ lb ∈ allRefs (sortLists (fldList input)), resolvePair lb = k) ∧
    (∀ l ∈ fullLabels (convert input now),
      ∃ lb, (allRefs (sortLists (fldList input))).find?
          (fun x => decide (resolvePair x = (l.color, l.name))) = some lb ∧
        l.id = gen_trello_id (labelSeed lb.id)) := by
  cases hd : fldList input with
  | nil =>
      rw [convert_nil input now hd] at h
      exact absurd h (by decide)
  | cons first rest =>
      cases hp : processLists (gen_trello_id (first.board_id.getD
          (.int 12345))) now [] 1 1 (sortLists (first :: rest)) with
      | none =>
          rw [convert_cons input now first rest hd, hp] at h
          simp only [Option.map_none'] at h
          exact absurd h (by decide)
      | some r =>
          have hlabels : fullLabels (convert input now) =
              r.1.map (fun e => e.2) := by
            rw [convert_cons input now first rest hd, hp]
            rfl
          have hstate : r.1 = labelFold (gen_trello_id (first.board_id.getD
              (.int 12345))) [] (allRefs (sortLists (first :: rest))) :=
            processLists_state (gen_trello_id (first.board_id.getD
              (.int 12345))) now (sortLists (first :: rest)) [] 1 1 r hp
          have hagree : ∀ e ∈ r.1, (e.2.color, e.2.name) = e.1 := by
            intro e he
            rw [hstate] at he
            exact (final_entry_spec (gen_trello_id (first.board_id.getD
              (.int 12345))) (allRefs (sortLists (first :: rest))) e he).1
          have hmapeq : (r.1.map (fun e => e.2)).map
              (fun l => (l.color, l.name)) = r.1.map (fun e => e.1) := by
            rw [List.map_map]
            exact List.map_congr_left hagree
          have hnd := nodup_keys_labelFold (gen_trello_id
            (first.board_id.getD (.int 12345)))
            (allRefs (sortLists (first :: rest))) [] (by simp)
          refine ⟨?_, ?_, ?_⟩
          · rw [hlabels, hmapeq, hstate]
            exact hnd
          · intro k
            rw [hlabels, hmapeq, hstate]
            constructor
            · intro hk
              have hlk : lookupLabel (labelFold (gen_trello_id
                  (first.board_id.getD (.int 12345)))
                  [] (allRefs (sortLists (first :: rest)))) k ≠ none :=
                fun hnone => ((lookupLabel_eq_none_iff _ _).mp hnone) hk
              have hio := infoOf_labelFold (gen_trello_id
                (first.board_id.getD (.int 12345)))
                (allRefs (sortLists (first :: rest))) [] k
              rw [show infoOf ([] : LabelMap) k = none from rfl,
                Option.none_or] at hio
              cases hf : (allRefs (sortLists (first :: rest))).find?
                  (fun x => decide (resolvePair x = k)) with
              | none =>
                  rw [hf] at hio
                  simp only [Option.map_none, Option.map_none'] at hio
                  exact absurd (Option.map_eq_none'.mp hio) hlk
              | some lb =>
                  have hplb := List.find?_some hf
                  simp only [decide_eq_true_eq] at hplb
                  exact ⟨lb, List.mem_of_find?_eq_some hf, hplb⟩
            · rintro ⟨lb, hmem, hres⟩
              have hsome : ((allRefs (sortLists (first :: rest))).find?
                  (fun x => decide (resolvePair x = k))).isSome :=
                List.find?_isSome.mpr ⟨lb, hmem, by simp [hres]⟩
              cases hf : (allRefs (sortLists (first :: rest))).find?
                  (fun x => decide (resolvePair x = k)) with
              | none => rw [hf] at hsome; simp at hsome
              | some lb' =>
                  have hio := infoOf_labelFold (gen_trello_id
                    (first.board_id.getD (.int 12345)))
                    (allRefs (sortLists (first :: rest))) [] k
                  rw [show infoOf ([] : LabelMap) k = none from rfl,
                    Option.none_or, hf] at hio
                  by_contra hk
                  rw [infoOf, (lookupLabel_eq_none_iff _ _).mpr hk] at hio
                  simp at hio
          · intro l hl
            rw [hlabels] at hl
            obtain ⟨e, he, rfl⟩ := List.mem_map.mp hl
            rw [hstate] at he
            obtain ⟨hkey, ⟨lb, hf, hid⟩, _⟩ := final_entry_spec
              (gen_trello_id (first.board_id.getD (.int 12345)))
              (allRefs (sortLists (first :: rest))) e he
            rw [hkey]
            exact ⟨lb, hf, hid⟩

/-- Witness for C6 at a concrete input with one label reference. -/
theorem C6_witness :
    isFull (convert winC6 "T") = true ∧
    (((fullLabels (convert winC6 "T")).map
      (fun l => (l.color, l.name))).Nodup ∧
    (∀ k : String × String,
      (k ∈ (fullLabels (convert winC6 "T")).map (fun l => (l.color, l.name)))
        ↔ ∃ lb ∈ allRefs (sortLists (fldList winC6)), resolvePair lb = k) ∧
    (∀ l ∈ fullLabels (convert winC6 "T"),
      ∃ lb, (allRefs (sortLists (fldList winC6))).find?
          (fun x => decide (resolvePair x = (l.color, l.name))) = some lb ∧
        l.id = gen_trello_id (labelSeed lb.id))) :=
  ⟨by decide, C6_label_dedup winC6 "T" (by decide)⟩

/-- C7: lists are emitted stably sorted by ascending source `position`
(ties in original input order), the k-th list gets position key `16384*k`,
cards keep their source order inside each list with position key
`listKey + ci*16384`, and position keys strictly increase within the lists
collection and within each list's card block. -/
theorem C7_ordering (input : Fld (List SrcList)) (now : String)
    (h : isFull (convert input now) = true) :
    (∀ xs : List SrcList, (sortLists xs).Perm xs) ∧
    (∀ xs : List SrcList,
      (sortLists xs).Pairwise (fun a b => sortKey a ≤ sortKey b)) ∧
    (∀ xs : List SrcList, (sortListsI xs).map Prod.snd = sortLists xs) ∧
    (∀ xs : List SrcList, (sortListsI xs).Pairwise lexLt) ∧
    (fullLists (convert input now)).map (fun t => t.pos) =
      (List.range' 1 (sortLists (fldList input)).length).map
        (fun (k : Nat) => 16384 * (k : Int)) ∧
    ((fullLists (convert input now)).map (fun t => t.pos)).Pairwise
      (fun a b => a < b) ∧
    List.Forall₂ (fun (sl : SrcList) (tl : TargetList) =>
      ∃ v, sl.id = some v ∧ tl.id = gen_trello_id v)
      (sortLists (fldList input)) (fullLists (convert input now)) ∧
    ∃ blocks : List (List TargetCard),
      fullCards (convert input now) = blocks.flatten ∧
      List.Forall₂ (fun (sl : SrcList) (blk : List TargetCard) =>
        List.Forall₂ (fun (sc : SrcCard) (tc : TargetCard) =>
          ∃ v, sc.id = some v ∧ tc.id = gen_trello_id v)
          (fldList sl.cards) blk) (sortLists (fldList input)) blocks ∧
      List.Forall₂ (fun (k : Nat) (blk : List TargetCard) =>
        blk.map (fun c => c.pos) = posSeq (16384 * (k : Int)) blk.length ∧
        (blk.map (fun c => c.pos)).Pairwise (fun a b => a < b))
        (List.range' 1 (sortLists (fldList input)).length) blocks := by
  cases hd : fldList input with
  | nil =>
      rw [convert_nil input now hd] at h
      exact absurd h (by decide)
  | cons first rest =>
      cases hp : processLists (gen_trello_id (first.board_id.getD
          (.int 12345))) now [] 1 1 (sortLists (first :: rest)) with
      | none =>
          rw [convert_cons input now first rest hd, hp] at h
          simp only [Option.map_none'] at h
          exact absurd h (by decide)
      | some r =>
          obtain ⟨hm, hfa, blocks, hflat, hfab, hfap⟩ :=
            processLists_blocks (gen_trello_id (first.board_id.getD
              (.int 12345))) now (sortLists (first :: rest)) [] 1 1 r hp
          have hl : fullLists (convert input now) = r.2.2.1 := by
            rw [convert_cons input now first rest hd, hp]
            rfl
          have hcards : fullCards (convert input now) = r.2.2.2.1 := by
            rw [convert_cons input now first rest hd, hp]
            rfl
          refine ⟨sortLists_perm, sortLists_pairwise, sortListsI_map_snd,
            sortListsI_pairwise, ?_, ?_, ?_, blocks, ?_, ?_, ?_⟩
          · rw [hl, hm]
          · rw [hl, hm]
            exact listPos_pairwise 1 _
          · rw [hl]
            exact hfa
          · rw [hcards, hflat]
          · exact hfab
          · refine hfap.imp ?_
            intro k blk hab
            exact ⟨hab, by rw [hab]; exact posSeq_pairwise _ _⟩

/-- Witness for C7 at an input whose lists are given out of position
order. -/
theorem C7_witness :
    isFull (convert winC7 "T") = true ∧
    ((fullLists (convert winC7 "T")).map (fun t => t.pos)).Pairwise
      (fun a b => a < b) :=
  ⟨by decide, (C7_ordering winC7 "T" (by decide)).2.2.2.2.2.1⟩

/-- C10: the output board id is the synthesized 24-char id of the first
record's `board_id`, falling back to the seed 12345 when that key is
absent; the empty-input path uses the same 12345 seed, so the two ids
coincide. -/
theorem C10_board_id :
    (∀ (input : Fld (List SrcList)) (now : String) first rest,
        fldList input = first :: rest → convert input now ≠ none →
        resultId (convert input now) =
          some (gen_trello_id (first.board_id.getD (.int 12345)))) ∧
    (∀ (input : Fld (List SrcList)) (now : String),
        fldList input = [] →
        resultId (convert input now) = some (gen_trello_id (.int 12345))) ∧
    (∀ (input : Fld (List SrcList)) (now now' : String) first rest,
        fldList input = first :: rest → first.board_id = none →
        convert input now ≠ none →
        resultId (convert input now) = resultId (convert none now')) ∧
    (∀ v, (gen_trello_id v).length = 24) := by
  have h1 : ∀ (input : Fld (List SrcList)) (now : String) first rest,
      fldList input = first :: rest → convert input now ≠ none →
      resultId (convert input now) =
        some (gen_trello_id (first.board_id.getD (.int 12345))) := by
    intro input now first rest h hne
    rw [convert_cons input now first rest h] at hne ⊢
    cases hp : processLists (gen_trello_id (first.board_id.getD (.int 12345)))
        now [] 1 1 (sortLists (first :: rest)) with
    | none => simp at hne; exact absurd hp hne
    | some r => rfl
  refine ⟨h1, ?_, ?_, length_gen_trello_id⟩
  · intro input now h
    rw [convert_nil input now h]
    rfl
  · intro input now now' first rest h hb hne
    rw [h1 input now first rest h hne, hb,
      convert_nil none now' rfl]
    rfl

/-- Witness for C10: a non-empty input whose first list lacks `board_id`
yields the same board id as the empty input. -/
theorem C10_witness :
    fldList winC10 = mkSrcList 1 [] :: [] ∧
    (mkSrcList 1 []).board_id = none ∧
    convert winC10 "T" ≠ none ∧
    resultId (convert winC10 "T") = resultId (convert none "U") :=
  ⟨rfl, rfl, by decide,
   C10_board_id.2.2.1 winC10 "T" "U" (mkSrcList 1 []) [] rfl rfl (by decide)⟩

end R2T

